import Mathlib

/-!
# The RTR database table and its snapshot diff (`src/rtr/db/db_table.c`)

A shallow embedding of `db_table.c`: the two hash-indexed stores of a table
(ROAs and Router Keys), insertion, removal, counting, iteration, and
`compute_deltas`.

Conventions of the embedding.

* A uthash table is the list of its nodes in the order of the list that
  `HASH_ITER` walks (`hh.next`): a node is appended at the tail when added.
* Whatever the C code obtains from the allocator is an explicit input: whether
  `malloc` succeeds, the value that the hash index leaves in `errno`, and the
  result of every operation of the delta sink.
* `int` results are `Int`; record fields are `Nat` (they are stored, never
  computed with), byte strings are lists of bytes.
-/

namespace DbTable

/-! ## Records -/

/-- Modelled from the spec: `struct ipv4_prefix` is declared in a header that is
not among the sources. An IPv4 address (`struct in_addr`, 4 bytes) and a prefix
length. -/
structure ipv4_prefix where
  addr : List Nat
  len : Nat
deriving DecidableEq, Repr

/-- Modelled from the spec: `struct ipv6_prefix` is declared in a header that is
not among the sources. An IPv6 address (`struct in6_addr`, 16 bytes) and a
prefix length. -/
structure ipv6_prefix where
  addr : List Nat
  len : Nat
deriving DecidableEq, Repr

/-- Modelled from the spec: `struct vrp` is declared in a header that is not
among the sources. "ROA record (VRP): address family tag, origin AS number,
prefix (union of IPv4/IPv6 address bytes, interpreted per family), prefix
length, maximum authorized length." The union `prefix` is the field
`prefix_addr`, the list of its 16 bytes. -/
structure vrp where
  asn : Nat
  prefix_addr : List Nat
  prefix_length : Nat
  max_prefix_length : Nat
  addr_fam : Nat
deriving DecidableEq, Repr

/-- Modelled from the spec: `struct router_key` is declared in a header that is
not among the sources. "Router Key record: Subject Key Identifier, origin AS
number, Subject Public Key Info." -/
structure router_key where
  ski : List Nat
  as : Nat
  spk : List Nat
deriving DecidableEq, Repr

/-- Modelled from the spec: `AF_INET` comes from `<sys/socket.h>`. -/
def AF_INET : Nat := 2

/-- Modelled from the spec: `AF_INET6` comes from `<sys/socket.h>` (the value
differs between systems and is never `AF_INET`). -/
def AF_INET6 : Nat := 10

/-- Modelled from the spec: `ENOMEM` comes from `<errno.h>`. -/
def ENOMEM : Int := 12

/-- Modelled from the spec: `pr_enomem` belongs to `log.h`, which is not among
the sources. It reports an allocation failure "with the underlying system error
code": the result is `-ENOMEM`. -/
def pr_enomem : Int := -ENOMEM

/-- Modelled from the spec: `FLAG_WITHDRAWAL` is declared in a header that is
not among the sources; the operation WITHDRAW of a delta entry. -/
def FLAG_WITHDRAWAL : Int := 0

/-- Modelled from the spec: `FLAG_ANNOUNCEMENT` is declared in a header that is
not among the sources; the operation ANNOUNCE of a delta entry. -/
def FLAG_ANNOUNCEMENT : Int := 1

/-- The node of the ROA hash table: `struct hashable_roa`. The handle `hh` is
the node's place in the list of the table. -/
structure hashable_roa where
  data : vrp
deriving DecidableEq, Repr

/-- The node of the Router Key hash table: `struct hashable_key`. -/
structure hashable_key where
  data : router_key
deriving DecidableEq, Repr

/-- The table: `struct db_table`, the heads of the two hash tables. -/
structure db_table where
  roas : List hashable_roa
  router_keys : List hashable_key
deriving DecidableEq, Repr

/-! ## The hash index (`data_structure/uthash_nonfatal.h`) -/

/-- Modelled from the spec: `HASH_FIND` of `uthash_nonfatal.h`, which is not
among the sources. "Looks up by key": the node of `head` whose key field equals
`keyptr`, if there is one. -/
def HASH_FIND {N K : Type} [DecidableEq K] (key : N → K) (head : List N)
    (keyptr : K) : Option N :=
  head.find? (fun n => decide (key n = keyptr))

/-- Modelled from the spec: `HASH_DELETE` of `uthash_nonfatal.h`. "Unlinks" the
node `delptr` from `head`. -/
def HASH_DELETE {N : Type} [DecidableEq N] (head : List N) (delptr : N) :
    List N :=
  head.erase delptr

/-- Modelled from the spec: `HASH_COUNT` of `uthash_nonfatal.h`. "Size of the
set": the number of nodes of `head`. -/
def HASH_COUNT {N : Type} (head : List N) : Nat :=
  head.length

/-- Modelled from the spec: `HASH_REPLACE` of `uthash_nonfatal.h`. "Computes the
value's key, looks up an existing entry; if found, releases the old entry and
installs the new one; if not found, allocates and installs." The node found is
unlinked first and handed back as `replaced`; then the new node is added at the
tail, a step that needs memory from the index: `errno_add` is the value that
step leaves in `errno` (0 when it succeeds), and when it is not 0 the new node
is not linked. The result is the new head, `replaced`, and `errno`. -/
def HASH_REPLACE {N K : Type} [DecidableEq K] [DecidableEq N] (key : N → K)
    (errno_add : Int) (head : List N) (add : N) : List N × Option N × Int :=
  let replaced := HASH_FIND key head (key add)
  let head1 :=
    match replaced with
    | some r => HASH_DELETE head r
    | none => head
  if errno_add ≠ 0 then (head1, replaced, errno_add)
  else (head1 ++ [add], replaced, 0)

/-! ## Creation, iteration -/

/-- The function `db_table_create`: `none` when `malloc` fails, otherwise a
table whose two heads are `NULL`. -/
def db_table_create (malloc_ok : Bool) : Option db_table :=
  if malloc_ok then some { roas := [], router_keys := [] } else none

/-- The loop of `db_table_foreach_roa` over the nodes that `HASH_ITER` visits. -/
def foreach_roa_loop {σ : Type} (cb : vrp → σ → Int × σ) :
    List hashable_roa → σ → Int × σ
  | [], arg => (0, arg)
  | node :: rest, arg =>
    let r := cb node.data arg
    if r.1 ≠ 0 then (r.1, r.2) else foreach_roa_loop cb rest r.2

/-- The function `db_table_foreach_roa`: the callback receives each record and
the state behind `arg`; the first non-zero result stops the iteration. -/
def db_table_foreach_roa {σ : Type} (table : db_table)
    (cb : vrp → σ → Int × σ) (arg : σ) : Int × σ :=
  foreach_roa_loop cb table.roas arg

/-- The loop of `db_table_foreach_router_key`. -/
def foreach_router_key_loop {σ : Type} (cb : router_key → σ → Int × σ) :
    List hashable_key → σ → Int × σ
  | [], arg => (0, arg)
  | node :: rest, arg =>
    let r := cb node.data arg
    if r.1 ≠ 0 then (r.1, r.2) else foreach_router_key_loop cb rest r.2

/-- The function `db_table_foreach_router_key`. -/
def db_table_foreach_router_key {σ : Type} (table : db_table)
    (cb : router_key → σ → Int × σ) (arg : σ) : Int × σ :=
  foreach_router_key_loop cb table.router_keys arg

/-! ## Insertion, counting, removal -/

/-- What the allocator does during one call of a handler: whether `malloc` of
the new node succeeds, and the value the hash index leaves in `errno` when it
adds the node (0 when it succeeds). -/
structure alloc_env where
  malloc_ok : Bool
  hash_errno : Int
deriving DecidableEq, Repr

/-- The environment in which nothing fails. -/
def alloc_env.ok : alloc_env := { malloc_ok := true, hash_errno := 0 }

/-- The 16 zero bytes that `memset` leaves in the union `prefix`. -/
def zero_prefix : List Nat := List.replicate 16 0

/-- Storing `bytes` at the start of the union whose bytes are `u`. -/
def write_prefix (bytes u : List Nat) : List Nat :=
  bytes ++ u.drop bytes.length

/-- The function `create_roa`: `none` when `malloc` fails, otherwise a node
filled with zeros except for `asn` and `max_prefix_length`. -/
def create_roa (malloc_ok : Bool) (asn max_length : Nat) : Option hashable_roa :=
  if malloc_ok then
    some { data := { asn := asn, prefix_addr := zero_prefix, prefix_length := 0,
                     max_prefix_length := max_length, addr_fam := 0 } }
  else none

/-- The function `add_roa`: the result and the table afterwards. `free(old)`
has no effect on the table. -/
def add_roa (errno_add : Int) (table : db_table) (new : hashable_roa) :
    Int × db_table :=
  let r := HASH_REPLACE hashable_roa.data errno_add table.roas new
  let table1 : db_table := { table with roas := r.1 }
  let error := r.2.2
  if error ≠ 0 then (-error, table1) else (0, table1)

/-- The function `add_router_key`. -/
def add_router_key (errno_add : Int) (table : db_table) (new : hashable_key) :
    Int × db_table :=
  let r := HASH_REPLACE hashable_key.data errno_add table.router_keys new
  let table1 : db_table := { table with router_keys := r.1 }
  let error := r.2.2
  if error ≠ 0 then (-error, table1) else (0, table1)

/-- The function `db_table_roa_count`. -/
def db_table_roa_count (table : db_table) : Nat :=
  HASH_COUNT table.roas

/-- The function `db_table_router_key_count`. -/
def db_table_router_key_count (table : db_table) : Nat :=
  HASH_COUNT table.router_keys

/-- The function `db_table_remove_roa`. -/
def db_table_remove_roa (table : db_table) (del : vrp) : db_table :=
  match HASH_FIND hashable_roa.data table.roas del with
  | some ptr => { table with roas := HASH_DELETE table.roas ptr }
  | none => table

/-- The function `db_table_remove_router_key`. -/
def db_table_remove_router_key (table : db_table) (del : router_key) : db_table :=
  match HASH_FIND hashable_key.data table.router_keys del with
  | some ptr => { table with router_keys := HASH_DELETE table.router_keys ptr }
  | none => table

/-- The function `rtrhandler_handle_roa_v4`: the result and the table
afterwards. -/
def rtrhandler_handle_roa_v4 (env : alloc_env) (table : db_table) (asn : Nat)
    (prefix4 : ipv4_prefix) (max_length : Nat) : Int × db_table :=
  match create_roa env.malloc_ok asn max_length with
  | none => (pr_enomem, table)
  | some roa =>
    let roa1 : hashable_roa :=
      { data := { roa.data with
                  prefix_addr := write_prefix prefix4.addr roa.data.prefix_addr,
                  prefix_length := prefix4.len,
                  addr_fam := AF_INET } }
    add_roa env.hash_errno table roa1

/-- The function `rtrhandler_handle_roa_v6`. -/
def rtrhandler_handle_roa_v6 (env : alloc_env) (table : db_table) (asn : Nat)
    (prefix6 : ipv6_prefix) (max_length : Nat) : Int × db_table :=
  match create_roa env.malloc_ok asn max_length with
  | none => (pr_enomem, table)
  | some roa =>
    let roa1 : hashable_roa :=
      { data := { roa.data with
                  prefix_addr := write_prefix prefix6.addr roa.data.prefix_addr,
                  prefix_length := prefix6.len,
                  addr_fam := AF_INET6 } }
    add_roa env.hash_errno table roa1

/-- Modelled from the spec: `router_key_init` is not among the sources. It
"builds a Router Key record" from the SKI, the AS number and the SPKI, which are
copied into the record. -/
def router_key_init (ski : List Nat) (as : Nat) (spk : List Nat) : router_key :=
  { ski := ski, as := as, spk := spk }

/-- The function `rtrhandler_handle_router_key`. -/
def rtrhandler_handle_router_key (env : alloc_env) (table : db_table)
    (ski : List Nat) (as : Nat) (spk : List Nat) : Int × db_table :=
  if env.malloc_ok then
    let key : hashable_key := { data := router_key_init ski as spk }
    add_router_key env.hash_errno table key
  else (pr_enomem, table)

/-! ## The delta sink (`deltas.h`) and the diff -/

/-- Modelled from the spec: a delta entry, "a (record, operation) pair where
operation is ANNOUNCE or WITHDRAW", of a ROA or of a Router Key. -/
inductive delta_entry where
  | roa (r : vrp) (op : Int)
  | key (k : router_key) (op : Int)
deriving DecidableEq, Repr

/-- Modelled from the spec: `struct deltas` is not among the sources. "An
append-only, reference-counted collection of (record, operation) entries": the
entries in the order of their appending, the reference count (an integer, so
that a release too many shows as a negative count), and the number of appends
attempted so far. -/
structure deltas where
  entries : List delta_entry
  references : Int
  add_calls : Nat
deriving DecidableEq, Repr

/-- What the delta sink does when it needs memory: the result of
`deltas_create`, and the result of the append attempted after `n` earlier
attempts (0 is success). -/
structure sink_env where
  create_error : Int
  add_error : Nat → Int

/-- The environment in which no sink operation fails. -/
def sink_env.ok : sink_env := { create_error := 0, add_error := fun _ => 0 }

/-- Modelled from the spec: `deltas_create` is not among the sources. "create":
an empty sink holding one reference, or an error and no sink. -/
def deltas_create (env : sink_env) : Int × Option deltas :=
  if env.create_error ≠ 0 then (env.create_error, none)
  else (0, some { entries := [], references := 1, add_calls := 0 })

/-- The append shared by `deltas_add_roa` and `deltas_add_router_key`: on
success the entry goes to the end of the sink, on failure the sink keeps its
entries. -/
def deltas_add (env : sink_env) (d : deltas) (e : delta_entry) : Int × deltas :=
  let error := env.add_error d.add_calls
  if error ≠ 0 then (error, { d with add_calls := d.add_calls + 1 })
  else (0, { d with entries := d.entries ++ [e], add_calls := d.add_calls + 1 })

/-- Modelled from the spec: `deltas_add_roa` is not among the sources.
"append-ROA": appends (record, operation), or fails. -/
def deltas_add_roa (env : sink_env) (d : deltas) (r : vrp) (op : Int) :
    Int × deltas :=
  deltas_add env d (delta_entry.roa r op)

/-- Modelled from the spec: `deltas_add_router_key` is not among the sources.
"append-router-key": appends (record, operation), or fails. -/
def deltas_add_router_key (env : sink_env) (d : deltas) (k : router_key)
    (op : Int) : Int × deltas :=
  deltas_add env d (delta_entry.key k op)

/-- Modelled from the spec: `deltas_refput` is not among the sources. "release":
gives up one reference; the sink is destroyed when none is left. -/
def deltas_refput (d : deltas) : deltas :=
  { d with references := d.references - 1 }

/-- The function `add_roa_deltas`: walks `roas1` in the order of `HASH_ITER`
and appends the records that `HASH_FIND` does not find in `roas2`; the first
failing append ends the walk. -/
def add_roa_deltas (env : sink_env) (roas1 roas2 : List hashable_roa)
    (d : deltas) (op : Int) : Int × deltas :=
  match roas1 with
  | [] => (0, d)
  | n1 :: rest =>
    match HASH_FIND hashable_roa.data roas2 n1.data with
    | none =>
      let r := deltas_add_roa env d n1.data op
      if r.1 ≠ 0 then (r.1, r.2) else add_roa_deltas env rest roas2 r.2 op
    | some _ => add_roa_deltas env rest roas2 d op

/-- The function `add_router_key_delta`. -/
def add_router_key_delta (env : sink_env) (d : deltas) (key : hashable_key)
    (op : Int) : Int × deltas :=
  deltas_add_router_key env d key.data op

/-- The function `add_router_key_deltas`: walks `keys1` along `hh.next`. -/
def add_router_key_deltas (env : sink_env) (keys1 keys2 : List hashable_key)
    (d : deltas) (op : Int) : Int × deltas :=
  match keys1 with
  | [] => (0, d)
  | n1 :: rest =>
    match HASH_FIND hashable_key.data keys2 n1.data with
    | none =>
      let r := add_router_key_delta env d n1 op
      if r.1 ≠ 0 then (r.1, r.2) else add_router_key_deltas env rest keys2 r.2 op
    | some _ => add_router_key_deltas env rest keys2 d op

/-- What a call of `compute_deltas` leaves behind: the value returned, the
content of `*result`, and the sink that the call created (if it created one) in
its final state. -/
structure deltas_outcome where
  ret : Int
  result : Option deltas
  sink : Option deltas
deriving DecidableEq, Repr

/-- The function `compute_deltas`. `result` is what `*result` holds before the
call; the label `fail` releases the sink and leaves `*result` alone. -/
def compute_deltas (env : sink_env) (old new : db_table)
    (result : Option deltas) : deltas_outcome :=
  match deltas_create env with
  | (error, none) => { ret := error, result := result, sink := none }
  | (_, some d0) =>
    let r1 := add_roa_deltas env new.roas old.roas d0 FLAG_ANNOUNCEMENT
    if r1.1 ≠ 0 then
      { ret := r1.1, result := result, sink := some (deltas_refput r1.2) }
    else
    let r2 := add_roa_deltas env old.roas new.roas r1.2 FLAG_WITHDRAWAL
    if r2.1 ≠ 0 then
      { ret := r2.1, result := result, sink := some (deltas_refput r2.2) }
    else
    let r3 := add_router_key_deltas env new.router_keys old.router_keys r2.2
      FLAG_ANNOUNCEMENT
    if r3.1 ≠ 0 then
      { ret := r3.1, result := result, sink := some (deltas_refput r3.2) }
    else
    let r4 := add_router_key_deltas env old.router_keys new.router_keys r3.2
      FLAG_WITHDRAWAL
    if r4.1 ≠ 0 then
      { ret := r4.1, result := result, sink := some (deltas_refput r4.2) }
    else
      { ret := 0, result := some r4.2, sink := some r4.2 }

/-! ## Reading a table and a sink -/

/-- The ROA records of a table, in the order of the iteration. -/
def roa_records (table : db_table) : List vrp :=
  table.roas.map hashable_roa.data

/-- The Router Key records of a table, in the order of the iteration. -/
def router_key_records (table : db_table) : List router_key :=
  table.router_keys.map hashable_key.data

/-- The ROA records that a list of entries carries with the operation `op`. -/
def roas_with (op : Int) (es : List delta_entry) : List vrp :=
  es.filterMap fun e =>
    match e with
    | delta_entry.roa r o => if o = op then some r else none
    | delta_entry.key _ _ => none

/-- The Router Key records that a list of entries carries with the operation
`op`. -/
def keys_with (op : Int) (es : List delta_entry) : List router_key :=
  es.filterMap fun e =>
    match e with
    | delta_entry.roa _ _ => none
    | delta_entry.key k o => if o = op then some k else none

/-- The entries of the sink that a call handed to its caller; none when nothing
was handed over. -/
def outcome_entries (o : deltas_outcome) : List delta_entry :=
  match o.result with
  | some d => d.entries
  | none => []

/-- Applying one delta entry to a table with the table's own operations: a
WITHDRAW removes the record, an ANNOUNCE inserts it (nothing failing). -/
def apply_delta (table : db_table) (e : delta_entry) : db_table :=
  match e with
  | delta_entry.roa r op =>
    if op = FLAG_WITHDRAWAL then db_table_remove_roa table r
    else (add_roa 0 table { data := r }).2
  | delta_entry.key k op =>
    if op = FLAG_WITHDRAWAL then db_table_remove_router_key table k
    else (add_router_key 0 table { data := k }).2

/-- Applying the entries of a sink, in their order, to a table. -/
def apply_deltas (table : db_table) (es : List delta_entry) : db_table :=
  es.foldl apply_delta table

/-- The store invariant: no two nodes of a store carry equal records. -/
def store_invariant (table : db_table) : Prop :=
  (roa_records table).Nodup ∧ (router_key_records table).Nodup

/-- The tables that the program can build: a fresh table, then any sequence of
the three handlers (failing or not) and of the two removals. -/
inductive Reachable : db_table → Prop where
  | create : Reachable { roas := [], router_keys := [] }
  | roa_v4 (env : alloc_env) (t : db_table) (asn : Nat) (prefix4 : ipv4_prefix)
      (max_length : Nat) :
      Reachable t → Reachable (rtrhandler_handle_roa_v4 env t asn prefix4 max_length).2
  | roa_v6 (env : alloc_env) (t : db_table) (asn : Nat) (prefix6 : ipv6_prefix)
      (max_length : Nat) :
      Reachable t → Reachable (rtrhandler_handle_roa_v6 env t asn prefix6 max_length).2
  | router_key (env : alloc_env) (t : db_table) (ski : List Nat) (as : Nat)
      (spk : List Nat) :
      Reachable t → Reachable (rtrhandler_handle_router_key env t ski as spk).2
  | remove_roa (t : db_table) (del : vrp) :
      Reachable t → Reachable (db_table_remove_roa t del)
  | remove_router_key (t : db_table) (del : router_key) :
      Reachable t → Reachable (db_table_remove_router_key t del)

/-- The record that `rtrhandler_handle_roa_v4` builds from its arguments. -/
def vrp_v4 (asn : Nat) (prefix4 : ipv4_prefix) (max_length : Nat) : vrp :=
  { asn := asn, prefix_addr := write_prefix prefix4.addr zero_prefix,
    prefix_length := prefix4.len, max_prefix_length := max_length, addr_fam := AF_INET }

/-- The record that `rtrhandler_handle_roa_v6` builds from its arguments. -/
def vrp_v6 (asn : Nat) (prefix6 : ipv6_prefix) (max_length : Nat) : vrp :=
  { asn := asn, prefix_addr := write_prefix prefix6.addr zero_prefix,
    prefix_length := prefix6.len, max_prefix_length := max_length, addr_fam := AF_INET6 }

/-- One more call of `call`, after calls that all returned 0 or not (`acc.1`)
and left the table `acc.2`. -/
def repeat_step (call : alloc_env → db_table → Int × db_table)
    (acc : Bool × db_table) (env : alloc_env) : Bool × db_table :=
  let r := call env acc.2
  (acc.1 && decide (r.1 = 0), r.2)

/-- Calling `call` once per environment of `envs`, each call on the table the
previous one left: whether every call returned 0, and the table at the end. -/
def repeat_calls (call : alloc_env → db_table → Int × db_table)
    (envs : List alloc_env) (table : db_table) : Bool × db_table :=
  envs.foldl (repeat_step call) (true, table)

/-- Calling `rtrhandler_handle_roa_v4` with the same arguments once per
environment of `envs`. -/
def repeat_roa_v4 (envs : List alloc_env) (table : db_table) (asn : Nat)
    (prefix4 : ipv4_prefix) (max_length : Nat) : Bool × db_table :=
  repeat_calls (fun env t => rtrhandler_handle_roa_v4 env t asn prefix4 max_length)
    envs table

/-- Calling `rtrhandler_handle_roa_v6` with the same arguments once per
environment of `envs`. -/
def repeat_roa_v6 (envs : List alloc_env) (table : db_table) (asn : Nat)
    (prefix6 : ipv6_prefix) (max_length : Nat) : Bool × db_table :=
  repeat_calls (fun env t => rtrhandler_handle_roa_v6 env t asn prefix6 max_length)
    envs table

/-- Calling `rtrhandler_handle_router_key` with the same arguments once per
environment of `envs`. -/
def repeat_router_key (envs : List alloc_env) (table : db_table)
    (ski : List Nat) (as : Nat) (spk : List Nat) : Bool × db_table :=
  repeat_calls (fun env t => rtrhandler_handle_router_key env t ski as spk)
    envs table

/-- The records of `roas1` that are not records of `roas2`, in the order of
`roas1`. -/
def roas_missing (roas1 roas2 : List hashable_roa) : List vrp :=
  (roas1.map hashable_roa.data).filter
    (fun r => decide (r ∉ roas2.map hashable_roa.data))

/-- The records of `keys1` that are not records of `keys2`, in the order of
`keys1`. -/
def keys_missing (keys1 keys2 : List hashable_key) : List router_key :=
  (keys1.map hashable_key.data).filter
    (fun k => decide (k ∉ keys2.map hashable_key.data))

/-- The four segments of a diff, one after the other: ROAs to announce, ROAs to
withdraw, Router Keys to announce, Router Keys to withdraw. -/
def diff_entries (old new : db_table) : List delta_entry :=
  (roas_missing new.roas old.roas).map (fun r => delta_entry.roa r FLAG_ANNOUNCEMENT)
  ++ (roas_missing old.roas new.roas).map (fun r => delta_entry.roa r FLAG_WITHDRAWAL)
  ++ (keys_missing new.router_keys old.router_keys).map
      (fun k => delta_entry.key k FLAG_ANNOUNCEMENT)
  ++ (keys_missing old.router_keys new.router_keys).map
      (fun k => delta_entry.key k FLAG_WITHDRAWAL)

/-! ## Reading the diff as a sequence of appends, and the iteration as a trace -/

/-- Appending the entries `es` to the sink one after the other, until an append
fails. -/
def append_all (env : sink_env) (d : deltas) : List delta_entry → Int × deltas
  | [] => (0, d)
  | e :: rest =>
    let r := deltas_add env d e
    if r.1 ≠ 0 then (r.1, r.2) else append_all env r.2 rest

/-- The sink that `deltas_create` hands out. -/
def fresh_sink : deltas := { entries := [], references := 1, add_calls := 0 }

/-- A callback that does what `cb` does and also notes, after the state of
`cb`, the records it was invoked on, in the order of the invocations. -/
def trace_cb {α σ : Type} (cb : α → σ → Int × σ) :
    α → σ × List α → Int × (σ × List α) :=
  fun r a =>
    let out := cb r a.1
    (out.1, (out.2, a.2 ++ [r]))

/-- The results of invoking `cb` on the records `rs`, one after the other,
each on the state the previous invocation left, whatever the results. -/
def call_results {α σ : Type} (cb : α → σ → Int × σ) : List α → σ → List Int
  | [], _ => []
  | r :: rest, s => (cb r s).1 :: call_results cb rest (cb r s).2

/-- The state after invoking `cb` on the records `rs`, one after the other. -/
def call_state {α σ : Type} (cb : α → σ → Int × σ) : List α → σ → σ
  | [], s => s
  | r :: rest, s => call_state cb rest (cb r s).2

/-- The iteration with early exit over a list of records: what both
`foreach_roa_loop` and `foreach_router_key_loop` do with the records of their
nodes. -/
def foreach_loop {α σ : Type} (cb : α → σ → Int × σ) : List α → σ → Int × σ
  | [], arg => (0, arg)
  | r :: rest, arg =>
    let out := cb r arg
    if out.1 ≠ 0 then (out.1, out.2) else foreach_loop cb rest out.2

/-- The callback that returns 0 and notes the record it was invoked on. -/
def note_cb {α : Type} : α → List α → Int × List α :=
  fun r log => (0, log ++ [r])

/-! ## Sink environments for the examples -/

/-- A sink environment in which the append attempted after `k` earlier attempts
fails with `e`, and nothing else fails. -/
def sink_env.fail_at (k : Nat) (e : Int) : sink_env :=
  { create_error := 0, add_error := fun n => if n = k then e else 0 }

/-- A sink environment in which `deltas_create` fails with `e`. -/
def sink_env.no_sink (e : Int) : sink_env :=
  { create_error := e, add_error := fun _ => 0 }

/-- The ROA records of a table in the order in which `db_table_foreach_roa`
visits them: what a callback that returns 0 notes. -/
def visited_roas (table : db_table) : List vrp :=
  (db_table_foreach_roa table note_cb []).2

/-- The Router Key records of a table in the order in which
`db_table_foreach_router_key` visits them. -/
def visited_router_keys (table : db_table) : List router_key :=
  (db_table_foreach_router_key table note_cb []).2

/-- The sequence that the four passes are to append: the ROAs of `new` absent
from `old` with ANNOUNCE, the ROAs of `old` absent from `new` with WITHDRAW, the
Router Keys of `new` absent from `old` with ANNOUNCE, the Router Keys of `old`
absent from `new` with WITHDRAW, each segment in the order of the iteration of
its outer store. -/
def ordered_diff (old new : db_table) : List delta_entry :=
  ((visited_roas new).filter (fun r => decide (r ∉ roa_records old))).map
      (fun r => delta_entry.roa r FLAG_ANNOUNCEMENT)
  ++ ((visited_roas old).filter (fun r => decide (r ∉ roa_records new))).map
      (fun r => delta_entry.roa r FLAG_WITHDRAWAL)
  ++ ((visited_router_keys new).filter
        (fun k => decide (k ∉ router_key_records old))).map
      (fun k => delta_entry.key k FLAG_ANNOUNCEMENT)
  ++ ((visited_router_keys old).filter
        (fun k => decide (k ∉ router_key_records new))).map
      (fun k => delta_entry.key k FLAG_WITHDRAWAL)

/-! ## Examples -/

/-- The ROA of AS 64500 for 10.0.0.0/24, maximum length 24. -/
def roa_64500 : vrp :=
  { asn := 64500, prefix_addr := [10, 0, 0, 0, 0, 0, 0, 0, 0, 0, 0, 0, 0, 0, 0, 0],
    prefix_length := 24, max_prefix_length := 24, addr_fam := AF_INET }

/-- The ROA of AS 64501 for 192.0.2.0/24, maximum length 24. -/
def roa_64501 : vrp :=
  { asn := 64501, prefix_addr := [192, 0, 2, 0, 0, 0, 0, 0, 0, 0, 0, 0, 0, 0, 0, 0],
    prefix_length := 24, max_prefix_length := 24, addr_fam := AF_INET }

/-- A Router Key of AS 64500. -/
def key_64500 : router_key := { ski := [1, 2, 3], as := 64500, spk := [4, 5] }

/-- A table holding one ROA and no Router Key. -/
def table_one : db_table :=
  { roas := [{ data := roa_64500 }], router_keys := [] }

/-- A table holding one ROA and one Router Key. -/
def table_keyed : db_table :=
  { roas := [{ data := roa_64500 }], router_keys := [{ data := key_64500 }] }

/-- A table holding two ROAs and no Router Key. -/
def table_two : db_table :=
  { roas := [{ data := roa_64500 }, { data := roa_64501 }], router_keys := [] }

/-- The table holding the two ROAs in the other order, and no Router Key. -/
def table_two_swapped : db_table :=
  { roas := [{ data := roa_64501 }, { data := roa_64500 }], router_keys := [] }

/-- A Router Key of AS 64501. -/
def key_64501 : router_key := { ski := [9, 8, 7], as := 64501, spk := [6] }

/-- A table holding the ROA of AS 64500 and the Router Key of AS 64500. -/
def table_before : db_table :=
  { roas := [{ data := roa_64500 }], router_keys := [{ data := key_64500 }] }

/-- A table holding the ROA of AS 64501 and the Router Key of AS 64501. -/
def table_after : db_table :=
  { roas := [{ data := roa_64501 }], router_keys := [{ data := key_64501 }] }

/-- The table with no entry. -/
def table_empty : db_table := { roas := [], router_keys := [] }

/-! ## The hash index: lookups -/

theorem HASH_FIND_eq_none_iff {N K : Type} [DecidableEq K] (key : N → K)
    (head : List N) (k : K) :
    HASH_FIND key head k = none ↔ k ∉ head.map key := by
  unfold HASH_FIND
  rw [List.find?_eq_none]
  simp only [decide_eq_true_eq, List.mem_map, not_exists, not_and]

theorem HASH_FIND_some {N K : Type} [DecidableEq K] (key : N → K)
    (head : List N) (k : K) (n : N) (h : HASH_FIND key head k = some n) :
    n ∈ head ∧ key n = k := by
  unfold HASH_FIND at h
  refine ⟨List.mem_of_find?_eq_some h, ?_⟩
  have := List.find?_some h
  simpa using this

/-! ## The diff: what the four passes append -/

theorem roas_missing_cons_none (n1 : hashable_roa) (rest roas2 : List hashable_roa)
    (h : HASH_FIND hashable_roa.data roas2 n1.data = none) :
    roas_missing (n1 :: rest) roas2 = n1.data :: roas_missing rest roas2 := by
  have h1 := (HASH_FIND_eq_none_iff hashable_roa.data roas2 n1.data).1 h
  simp [roas_missing, List.filter_cons]
  simpa using h1

theorem roas_missing_cons_some (n1 n2 : hashable_roa) (rest roas2 : List hashable_roa)
    (h : HASH_FIND hashable_roa.data roas2 n1.data = some n2) :
    roas_missing (n1 :: rest) roas2 = roas_missing rest roas2 := by
  have h1 : n1.data ∈ roas2.map hashable_roa.data := by
    by_contra hc
    rw [(HASH_FIND_eq_none_iff hashable_roa.data roas2 n1.data).2 hc] at h
    exact Option.noConfusion h
  simp [roas_missing, List.filter_cons]
  simpa using h1

theorem keys_missing_cons_none (n1 : hashable_key) (rest keys2 : List hashable_key)
    (h : HASH_FIND hashable_key.data keys2 n1.data = none) :
    keys_missing (n1 :: rest) keys2 = n1.data :: keys_missing rest keys2 := by
  have h1 := (HASH_FIND_eq_none_iff hashable_key.data keys2 n1.data).1 h
  simp [keys_missing, List.filter_cons]
  simpa using h1

theorem keys_missing_cons_some (n1 n2 : hashable_key) (rest keys2 : List hashable_key)
    (h : HASH_FIND hashable_key.data keys2 n1.data = some n2) :
    keys_missing (n1 :: rest) keys2 = keys_missing rest keys2 := by
  have h1 : n1.data ∈ keys2.map hashable_key.data := by
    by_contra hc
    rw [(HASH_FIND_eq_none_iff hashable_key.data keys2 n1.data).2 hc] at h
    exact Option.noConfusion h
  simp [keys_missing, List.filter_cons]
  simpa using h1

/-- A pass over the ROAs that returns 0 has appended, after what the sink held,
the records of `roas1` missing from `roas2`, in order, and has left the
reference count alone. -/
theorem add_roa_deltas_ok (env : sink_env) (roas1 roas2 : List hashable_roa)
    (d : deltas) (op : Int) (h : (add_roa_deltas env roas1 roas2 d op).1 = 0) :
    (add_roa_deltas env roas1 roas2 d op).2.entries =
        d.entries ++ (roas_missing roas1 roas2).map (fun r => delta_entry.roa r op)
      ∧ (add_roa_deltas env roas1 roas2 d op).2.references = d.references := by
  induction roas1 generalizing d with
  | nil => simp [add_roa_deltas, roas_missing]
  | cons n1 rest ih =>
    cases hf : HASH_FIND hashable_roa.data roas2 n1.data with
    | none =>
      rw [roas_missing_cons_none n1 rest roas2 hf]
      simp only [add_roa_deltas, hf] at h ⊢
      by_cases he : (deltas_add_roa env d n1.data op).1 = 0
      · simp only [he, ne_eq, not_true_eq_false, if_false] at h ⊢
        have ih1 := ih _ h
        have hadd : (deltas_add_roa env d n1.data op).2.entries
            = d.entries ++ [delta_entry.roa n1.data op]
            ∧ (deltas_add_roa env d n1.data op).2.references = d.references := by
          simp only [deltas_add_roa, deltas_add] at he ⊢
          by_cases hz : env.add_error d.add_calls = 0
          · simp [hz]
          · simp [hz] at he
        rw [ih1.1, ih1.2, hadd.1, hadd.2]
        simp
      · simp only [he, ne_eq, not_false_eq_true, if_true] at h
    | some n2 =>
      rw [roas_missing_cons_some n1 n2 rest roas2 hf]
      simp only [add_roa_deltas, hf] at h ⊢
      exact ih _ h

/-- A pass over the Router Keys that returns 0 has appended, after what the
sink held, the records of `keys1` missing from `keys2`, in order. -/
theorem add_router_key_deltas_ok (env : sink_env) (keys1 keys2 : List hashable_key)
    (d : deltas) (op : Int)
    (h : (add_router_key_deltas env keys1 keys2 d op).1 = 0) :
    (add_router_key_deltas env keys1 keys2 d op).2.entries =
        d.entries ++ (keys_missing keys1 keys2).map (fun k => delta_entry.key k op)
      ∧ (add_router_key_deltas env keys1 keys2 d op).2.references = d.references := by
  induction keys1 generalizing d with
  | nil => simp [add_router_key_deltas, keys_missing]
  | cons n1 rest ih =>
    cases hf : HASH_FIND hashable_key.data keys2 n1.data with
    | none =>
      rw [keys_missing_cons_none n1 rest keys2 hf]
      simp only [add_router_key_deltas, hf] at h ⊢
      by_cases he : (add_router_key_delta env d n1 op).1 = 0
      · simp only [he, ne_eq, not_true_eq_false, if_false] at h ⊢
        have ih1 := ih _ h
        have hadd : (add_router_key_delta env d n1 op).2.entries
            = d.entries ++ [delta_entry.key n1.data op]
            ∧ (add_router_key_delta env d n1 op).2.references = d.references := by
          simp only [add_router_key_delta, deltas_add_router_key, deltas_add] at he ⊢
          by_cases hz : env.add_error d.add_calls = 0
          · simp [hz]
          · simp [hz] at he
        rw [ih1.1, ih1.2, hadd.1, hadd.2]
        simp
      · simp only [he, ne_eq, not_false_eq_true, if_true] at h
    | some n2 =>
      rw [keys_missing_cons_some n1 n2 rest keys2 hf]
      simp only [add_router_key_deltas, hf] at h ⊢
      exact ih _ h

/-- A call of `compute_deltas` that returns 0 hands over a sink whose entries
are the four segments of the diff. -/
theorem compute_deltas_ok (env : sink_env) (old new : db_table)
    (result : Option deltas) (h : (compute_deltas env old new result).ret = 0) :
    ∃ d, (compute_deltas env old new result).result = some d
      ∧ d.entries = diff_entries old new := by
  unfold compute_deltas at h ⊢
  unfold deltas_create at h ⊢
  by_cases hc : env.create_error = 0
  · simp only [hc, ne_eq, not_true_eq_false, if_false] at h ⊢
    by_cases h1 : (add_roa_deltas env new.roas old.roas
        { entries := [], references := 1, add_calls := 0 } FLAG_ANNOUNCEMENT).1 = 0
    · simp only [h1, not_true_eq_false, if_false] at h ⊢
      have e1 := (add_roa_deltas_ok env _ _ _ _ h1).1
      by_cases h2 : (add_roa_deltas env old.roas new.roas
          (add_roa_deltas env new.roas old.roas
            { entries := [], references := 1, add_calls := 0 } FLAG_ANNOUNCEMENT).2
          FLAG_WITHDRAWAL).1 = 0
      · simp only [h2, not_true_eq_false, if_false] at h ⊢
        have e2 := (add_roa_deltas_ok env _ _ _ _ h2).1
        by_cases h3 : (add_router_key_deltas env new.router_keys old.router_keys
            (add_roa_deltas env old.roas new.roas
              (add_roa_deltas env new.roas old.roas
                { entries := [], references := 1, add_calls := 0 }
                FLAG_ANNOUNCEMENT).2
              FLAG_WITHDRAWAL).2 FLAG_ANNOUNCEMENT).1 = 0
        · simp only [h3, not_true_eq_false, if_false] at h ⊢
          have e3 := (add_router_key_deltas_ok env _ _ _ _ h3).1
          by_cases h4 : (add_router_key_deltas env old.router_keys new.router_keys
              (add_router_key_deltas env new.router_keys old.router_keys
                (add_roa_deltas env old.roas new.roas
                  (add_roa_deltas env new.roas old.roas
                    { entries := [], references := 1, add_calls := 0 }
                    FLAG_ANNOUNCEMENT).2
                  FLAG_WITHDRAWAL).2 FLAG_ANNOUNCEMENT).2 FLAG_WITHDRAWAL).1 = 0
          · simp only [h4, not_true_eq_false, if_false] at h ⊢
            have e4 := (add_router_key_deltas_ok env _ _ _ _ h4).1
            refine ⟨_, rfl, ?_⟩
            rw [e4, e3, e2, e1]
            simp [diff_entries]
          · simp only [h4, not_false_eq_true, if_true] at h
        · simp only [h3, not_false_eq_true, if_true] at h
      · simp only [h2, not_false_eq_true, if_true] at h
    · simp only [h1, not_false_eq_true, if_true] at h
  · simp only [hc, ne_eq, not_false_eq_true, if_true] at h

/-! ## Reading the entries of a diff -/

theorem roas_with_append (op : Int) (a b : List delta_entry) :
    roas_with op (a ++ b) = roas_with op a ++ roas_with op b := by
  simp [roas_with, List.filterMap_append]

theorem keys_with_append (op : Int) (a b : List delta_entry) :
    keys_with op (a ++ b) = keys_with op a ++ keys_with op b := by
  simp [keys_with, List.filterMap_append]

theorem roas_with_map_roa (op o : Int) (rs : List vrp) :
    roas_with op (rs.map (fun r => delta_entry.roa r o)) = if o = op then rs else [] := by
  induction rs with
  | nil => simp [roas_with]
  | cons r rs ih =>
    simp only [roas_with] at ih
    by_cases h : o = op
    · simp only [h, if_true] at ih ⊢
      simp [roas_with, List.filterMap_cons, ih]
    · simp only [h, if_false] at ih ⊢
      simp [roas_with, List.filterMap_cons, ih, h]

theorem roas_with_map_key (op o : Int) (ks : List router_key) :
    roas_with op (ks.map (fun k => delta_entry.key k o)) = [] := by
  induction ks with
  | nil => simp [roas_with]
  | cons k ks ih =>
    simp only [roas_with] at ih
    simp [roas_with, List.filterMap_cons, ih]

theorem keys_with_map_key (op o : Int) (ks : List router_key) :
    keys_with op (ks.map (fun k => delta_entry.key k o)) = if o = op then ks else [] := by
  induction ks with
  | nil => simp [keys_with]
  | cons k ks ih =>
    simp only [keys_with] at ih
    by_cases h : o = op
    · simp only [h, if_true] at ih ⊢
      simp [keys_with, List.filterMap_cons, ih]
    · simp only [h, if_false] at ih ⊢
      simp [keys_with, List.filterMap_cons, ih, h]

theorem keys_with_map_roa (op o : Int) (rs : List vrp) :
    keys_with op (rs.map (fun r => delta_entry.roa r o)) = [] := by
  induction rs with
  | nil => simp [keys_with]
  | cons r rs ih =>
    simp only [keys_with] at ih
    simp [keys_with, List.filterMap_cons, ih]

/-- The four readings of the segments of a diff. -/
theorem diff_entries_read (old new : db_table) :
    roas_with FLAG_ANNOUNCEMENT (diff_entries old new) = roas_missing new.roas old.roas
    ∧ roas_with FLAG_WITHDRAWAL (diff_entries old new) = roas_missing old.roas new.roas
    ∧ keys_with FLAG_ANNOUNCEMENT (diff_entries old new)
        = keys_missing new.router_keys old.router_keys
    ∧ keys_with FLAG_WITHDRAWAL (diff_entries old new)
        = keys_missing old.router_keys new.router_keys := by
  have hne : FLAG_WITHDRAWAL ≠ FLAG_ANNOUNCEMENT := by decide
  have hne2 : FLAG_ANNOUNCEMENT ≠ FLAG_WITHDRAWAL := by decide
  refine ⟨?_, ?_, ?_, ?_⟩ <;>
    simp [diff_entries, roas_with_append, keys_with_append, roas_with_map_roa,
      roas_with_map_key, keys_with_map_key, keys_with_map_roa, hne, hne2]

theorem mem_roas_missing (roas1 roas2 : List hashable_roa) (r : vrp) :
    r ∈ roas_missing roas1 roas2
      ↔ r ∈ roas1.map hashable_roa.data ∧ r ∉ roas2.map hashable_roa.data := by
  simp [roas_missing, List.mem_filter]

theorem mem_keys_missing (keys1 keys2 : List hashable_key) (k : router_key) :
    k ∈ keys_missing keys1 keys2
      ↔ k ∈ keys1.map hashable_key.data ∧ k ∉ keys2.map hashable_key.data := by
  simp [keys_missing, List.mem_filter]

/-! ## Claims about the diff -/

/-- C1: when no sink operation fails (the call returns 0), the sink handed over
by `compute_deltas old new` announces exactly the ROAs of `new` that are not in
`old`, withdraws exactly the ROAs of `old` that are not in `new`, and the same
for the Router Keys; membership is equality of the whole record. -/
theorem compute_deltas_sound_complete (env : sink_env) (old new : db_table)
    (result : Option deltas) (h : (compute_deltas env old new result).ret = 0) :
    ∃ d, (compute_deltas env old new result).result = some d
      ∧ (∀ r, r ∈ roas_with FLAG_ANNOUNCEMENT d.entries
            ↔ r ∈ roa_records new ∧ r ∉ roa_records old)
      ∧ (∀ r, r ∈ roas_with FLAG_WITHDRAWAL d.entries
            ↔ r ∈ roa_records old ∧ r ∉ roa_records new)
      ∧ (∀ k, k ∈ keys_with FLAG_ANNOUNCEMENT d.entries
            ↔ k ∈ router_key_records new ∧ k ∉ router_key_records old)
      ∧ (∀ k, k ∈ keys_with FLAG_WITHDRAWAL d.entries
            ↔ k ∈ router_key_records old ∧ k ∉ router_key_records new) := by
  obtain ⟨d, hd, he⟩ := compute_deltas_ok env old new result h
  obtain ⟨r1, r2, r3, r4⟩ := diff_entries_read old new
  refine ⟨d, hd, ?_, ?_, ?_, ?_⟩
  · intro r
    rw [he, r1]
    exact mem_roas_missing new.roas old.roas r
  · intro r
    rw [he, r2]
    exact mem_roas_missing old.roas new.roas r
  · intro k
    rw [he, r3]
    exact mem_keys_missing new.router_keys old.router_keys k
  · intro k
    rw [he, r4]
    exact mem_keys_missing old.router_keys new.router_keys k

/-- Witness of C1, on the scenario of the specification: the old table holds the
ROA of AS 64500, the new one holds it and the ROA of AS 64501. -/
theorem compute_deltas_sound_complete_witness :
    (compute_deltas sink_env.ok table_one table_two none).ret = 0
    ∧ ∃ d, (compute_deltas sink_env.ok table_one table_two none).result = some d
      ∧ (∀ r, r ∈ roas_with FLAG_ANNOUNCEMENT d.entries
            ↔ r ∈ roa_records table_two ∧ r ∉ roa_records table_one)
      ∧ (∀ r, r ∈ roas_with FLAG_WITHDRAWAL d.entries
            ↔ r ∈ roa_records table_one ∧ r ∉ roa_records table_two)
      ∧ (∀ k, k ∈ keys_with FLAG_ANNOUNCEMENT d.entries
            ↔ k ∈ router_key_records table_two ∧ k ∉ router_key_records table_one)
      ∧ (∀ k, k ∈ keys_with FLAG_WITHDRAWAL d.entries
            ↔ k ∈ router_key_records table_one ∧ k ∉ router_key_records table_two) :=
  ⟨by decide, compute_deltas_sound_complete sink_env.ok table_one table_two none (by decide)⟩

/-- The scenario of the specification, evaluated: exactly one entry, the ROA of
AS 64501 with ANNOUNCE, and no withdrawal. -/
theorem compute_deltas_scenario_announce :
    (compute_deltas sink_env.ok table_one table_two none).result
      = some { entries := [delta_entry.roa roa_64501 FLAG_ANNOUNCEMENT],
               references := 1, add_calls := 1 } := by
  decide

/-- A pass over ROAs that are all found in `roas2` appends nothing and attempts
no append, whatever the sink would have answered. -/
theorem add_roa_deltas_all_found (env : sink_env) (roas1 roas2 : List hashable_roa)
    (d : deltas) (op : Int)
    (h : ∀ r, r ∈ roas1.map hashable_roa.data → r ∈ roas2.map hashable_roa.data) :
    add_roa_deltas env roas1 roas2 d op = (0, d) := by
  induction roas1 with
  | nil => simp [add_roa_deltas]
  | cons n1 rest ih =>
    have hrest : ∀ r, r ∈ rest.map hashable_roa.data → r ∈ roas2.map hashable_roa.data :=
      fun r hr => h r (by simp only [List.map_cons]; exact List.mem_cons_of_mem _ hr)
    cases hf : HASH_FIND hashable_roa.data roas2 n1.data with
    | none =>
      have hn := (HASH_FIND_eq_none_iff hashable_roa.data roas2 n1.data).1 hf
      exact absurd (h n1.data (by simp)) hn
    | some n2 =>
      simp only [add_roa_deltas, hf]
      exact ih hrest

/-- A pass over Router Keys that are all found in `keys2` appends nothing and
attempts no append. -/
theorem add_router_key_deltas_all_found (env : sink_env)
    (keys1 keys2 : List hashable_key) (d : deltas) (op : Int)
    (h : ∀ k, k ∈ keys1.map hashable_key.data → k ∈ keys2.map hashable_key.data) :
    add_router_key_deltas env keys1 keys2 d op = (0, d) := by
  induction keys1 with
  | nil => simp [add_router_key_deltas]
  | cons n1 rest ih =>
    have hrest : ∀ k, k ∈ rest.map hashable_key.data → k ∈ keys2.map hashable_key.data :=
      fun k hk => h k (by simp only [List.map_cons]; exact List.mem_cons_of_mem _ hk)
    cases hf : HASH_FIND hashable_key.data keys2 n1.data with
    | none =>
      have hn := (HASH_FIND_eq_none_iff hashable_key.data keys2 n1.data).1 hf
      exact absurd (h n1.data (by simp)) hn
    | some n2 =>
      simp only [add_router_key_deltas, hf]
      exact ih hrest

/-- C2: for two tables holding the same set of ROAs and the same set of Router
Keys (the same instance, or instances filled in any order), `compute_deltas`
attempts no append: once `deltas_create` has given it a sink, it returns 0 and
hands over that sink with no entry. -/
theorem compute_deltas_same_contents (env : sink_env) (t1 t2 : db_table)
    (result : Option deltas)
    (hr : ∀ r, r ∈ roa_records t1 ↔ r ∈ roa_records t2)
    (hk : ∀ k, k ∈ router_key_records t1 ↔ k ∈ router_key_records t2)
    (hc : env.create_error = 0) :
    compute_deltas env t1 t2 result =
      { ret := 0,
        result := some { entries := [], references := 1, add_calls := 0 },
        sink := some { entries := [], references := 1, add_calls := 0 } } := by
  have a1 := add_roa_deltas_all_found env t2.roas t1.roas
    { entries := [], references := 1, add_calls := 0 } FLAG_ANNOUNCEMENT
    (fun r h => (hr r).2 h)
  have a2 := add_roa_deltas_all_found env t1.roas t2.roas
    { entries := [], references := 1, add_calls := 0 } FLAG_WITHDRAWAL
    (fun r h => (hr r).1 h)
  have a3 := add_router_key_deltas_all_found env t2.router_keys t1.router_keys
    { entries := [], references := 1, add_calls := 0 } FLAG_ANNOUNCEMENT
    (fun k h => (hk k).2 h)
  have a4 := add_router_key_deltas_all_found env t1.router_keys t2.router_keys
    { entries := [], references := 1, add_calls := 0 } FLAG_WITHDRAWAL
    (fun k h => (hk k).1 h)
  simp [compute_deltas, deltas_create, hc, a1, a2, a3, a4]

/-- Witness of C2: two instances holding the same two ROAs, inserted in opposite
orders. -/
theorem compute_deltas_same_contents_witness :
    (∀ r, r ∈ roa_records table_two ↔ r ∈ roa_records table_two_swapped)
    ∧ (∀ k, k ∈ router_key_records table_two ↔ k ∈ router_key_records table_two_swapped)
    ∧ sink_env.ok.create_error = 0
    ∧ compute_deltas sink_env.ok table_two table_two_swapped none =
      { ret := 0,
        result := some { entries := [], references := 1, add_calls := 0 },
        sink := some { entries := [], references := 1, add_calls := 0 } } :=
  have hr : ∀ r, r ∈ roa_records table_two ↔ r ∈ roa_records table_two_swapped := by
    intro r
    simp only [roa_records, table_two, table_two_swapped, List.map_cons, List.map_nil,
      List.mem_cons, List.mem_nil_iff, or_false]
    exact or_comm
  have hk : ∀ k, k ∈ router_key_records table_two
      ↔ k ∈ router_key_records table_two_swapped := fun _ => Iff.rfl
  ⟨hr, hk, rfl, compute_deltas_same_contents sink_env.ok table_two table_two_swapped none
    hr hk rfl⟩

/-- C3: when both calls return 0, the records announced by `compute_deltas a b`
are the records withdrawn by `compute_deltas b a`, and the records withdrawn by
the first are the records announced by the second, for ROAs and for Router Keys:
the same records, field for field (and in the same order). -/
theorem compute_deltas_swap (env1 env2 : sink_env) (a b : db_table)
    (res1 res2 : Option deltas)
    (h1 : (compute_deltas env1 a b res1).ret = 0)
    (h2 : (compute_deltas env2 b a res2).ret = 0) :
    ∃ d1 d2, (compute_deltas env1 a b res1).result = some d1
      ∧ (compute_deltas env2 b a res2).result = some d2
      ∧ roas_with FLAG_ANNOUNCEMENT d1.entries = roas_with FLAG_WITHDRAWAL d2.entries
      ∧ roas_with FLAG_WITHDRAWAL d1.entries = roas_with FLAG_ANNOUNCEMENT d2.entries
      ∧ keys_with FLAG_ANNOUNCEMENT d1.entries = keys_with FLAG_WITHDRAWAL d2.entries
      ∧ keys_with FLAG_WITHDRAWAL d1.entries = keys_with FLAG_ANNOUNCEMENT d2.entries := by
  obtain ⟨d1, hd1, he1⟩ := compute_deltas_ok env1 a b res1 h1
  obtain ⟨d2, hd2, he2⟩ := compute_deltas_ok env2 b a res2 h2
  obtain ⟨p1, p2, p3, p4⟩ := diff_entries_read a b
  obtain ⟨q1, q2, q3, q4⟩ := diff_entries_read b a
  refine ⟨d1, d2, hd1, hd2, ?_, ?_, ?_, ?_⟩
  · rw [he1, he2, p1, q2]
  · rw [he1, he2, p2, q1]
  · rw [he1, he2, p3, q4]
  · rw [he1, he2, p4, q3]

/-- Witness of C3: a table with one ROA and one Router Key against a table with
two ROAs. -/
theorem compute_deltas_swap_witness :
    (compute_deltas sink_env.ok table_keyed table_two none).ret = 0
    ∧ (compute_deltas sink_env.ok table_two table_keyed none).ret = 0
    ∧ ∃ d1 d2, (compute_deltas sink_env.ok table_keyed table_two none).result = some d1
      ∧ (compute_deltas sink_env.ok table_two table_keyed none).result = some d2
      ∧ roas_with FLAG_ANNOUNCEMENT d1.entries = roas_with FLAG_WITHDRAWAL d2.entries
      ∧ roas_with FLAG_WITHDRAWAL d1.entries = roas_with FLAG_ANNOUNCEMENT d2.entries
      ∧ keys_with FLAG_ANNOUNCEMENT d1.entries = keys_with FLAG_WITHDRAWAL d2.entries
      ∧ keys_with FLAG_WITHDRAWAL d1.entries = keys_with FLAG_ANNOUNCEMENT d2.entries :=
  ⟨by decide, by decide,
    compute_deltas_swap sink_env.ok sink_env.ok table_keyed table_two none none
      (by decide) (by decide)⟩

/-! ## The hash index: replacing and deleting -/

theorem HASH_REPLACE_absent {N K : Type} [DecidableEq K] [DecidableEq N]
    (key : N → K) (e : Int) (head : List N) (add : N)
    (h : key add ∉ head.map key) :
    HASH_REPLACE key e head add
      = if e ≠ 0 then (head, none, e) else (head ++ [add], none, 0) := by
  have hf := (HASH_FIND_eq_none_iff key head (key add)).2 h
  simp only [HASH_REPLACE, hf]

theorem HASH_REPLACE_present {N K : Type} [DecidableEq K] [DecidableEq N]
    (key : N → K) (e : Int) (head : List N) (add : N)
    (h : key add ∈ head.map key) :
    ∃ r, r ∈ head ∧ key r = key add ∧
      HASH_REPLACE key e head add
        = if e ≠ 0 then (head.erase r, some r, e) else (head.erase r ++ [add], some r, 0) := by
  cases hf : HASH_FIND key head (key add) with
  | none => exact absurd h ((HASH_FIND_eq_none_iff key head (key add)).1 hf)
  | some r =>
    obtain ⟨hm, hk⟩ := HASH_FIND_some key head (key add) r hf
    exact ⟨r, hm, hk, by simp only [HASH_REPLACE, hf, HASH_DELETE]⟩

theorem nodup_map_erase {N K : Type} [DecidableEq N] (key : N → K)
    (head : List N) (r : N) (h : (head.map key).Nodup) :
    ((head.erase r).map key).Nodup :=
  h.sublist ((List.erase_sublist r head).map key)

theorem not_mem_map_erase {N K : Type} [DecidableEq N] (key : N → K)
    (head : List N) (r : N) (h : (head.map key).Nodup) (hr : r ∈ head) :
    key r ∉ (head.erase r).map key := by
  intro hc
  obtain ⟨n, hn, hk⟩ := List.mem_map.1 hc
  have hn1 : n ∈ head := List.mem_of_mem_erase hn
  have heq : n = r := List.inj_on_of_nodup_map h hn1 hr hk
  subst heq
  exact (List.Nodup.not_mem_erase (List.Nodup.of_map key h)) hn

theorem mem_map_erase_of_ne {N K : Type} [DecidableEq N] (key : N → K)
    (head : List N) (r : N) (k : K) (hk : k ∈ head.map key) (hne : k ≠ key r) :
    k ∈ (head.erase r).map key := by
  obtain ⟨n, hn, rfl⟩ := List.mem_map.1 hk
  have hnr : n ≠ r := fun hc => hne (by rw [hc])
  exact List.mem_map.2 ⟨n, (List.mem_erase_of_ne hnr).2 hn, rfl⟩

/-- After `HASH_REPLACE`, failed or not, no two nodes carry the same key if none
did before. -/
theorem HASH_REPLACE_nodup {N K : Type} [DecidableEq K] [DecidableEq N]
    (key : N → K) (e : Int) (head : List N) (add : N)
    (h : (head.map key).Nodup) :
    ((HASH_REPLACE key e head add).1.map key).Nodup := by
  by_cases hm : key add ∈ head.map key
  · obtain ⟨r, hr, hk, heq⟩ := HASH_REPLACE_present key e head add hm
    rw [heq]
    by_cases he : e = 0
    · simp only [he, ne_eq, not_true_eq_false, if_false, List.map_append, List.map_cons,
        List.map_nil]
      refine List.Nodup.append (nodup_map_erase key head r h) (List.nodup_singleton _) ?_
      intro k hk1 hk2
      rw [List.mem_singleton] at hk2
      rw [hk2, ← hk] at hk1
      exact not_mem_map_erase key head r h hr hk1
    · simp only [he, ne_eq, not_false_eq_true, if_true]
      exact nodup_map_erase key head r h
  · rw [HASH_REPLACE_absent key e head add hm]
    by_cases he : e = 0
    · simp only [he, ne_eq, not_true_eq_false, if_false, List.map_append, List.map_cons,
        List.map_nil]
      refine List.Nodup.append h (List.nodup_singleton _) ?_
      intro k hk1 hk2
      rw [List.mem_singleton] at hk2
      rw [hk2] at hk1
      exact hm hk1
    · simp only [he, ne_eq, not_false_eq_true, if_true]
      exact h

/-- The keys after a successful `HASH_REPLACE`: the new key and the old ones. -/
theorem HASH_REPLACE_mem {N K : Type} [DecidableEq K] [DecidableEq N]
    (key : N → K) (head : List N) (add : N) (k : K) :
    k ∈ (HASH_REPLACE key 0 head add).1.map key ↔ k = key add ∨ k ∈ head.map key := by
  by_cases hm : key add ∈ head.map key
  · obtain ⟨r, hr, hk, heq⟩ := HASH_REPLACE_present key 0 head add hm
    rw [heq]
    simp only [ne_eq, not_true_eq_false, if_false, List.map_append, List.map_cons,
      List.map_nil, List.mem_append, List.mem_singleton]
    constructor
    · rintro (h1 | h1)
      · obtain ⟨n, hn, rfl⟩ := List.mem_map.1 h1
        exact Or.inr (List.mem_map.2 ⟨n, List.mem_of_mem_erase hn, rfl⟩)
      · exact Or.inl h1
    · rintro (h1 | h1)
      · exact Or.inr h1
      · by_cases hkk : k = key add
        · exact Or.inr hkk
        · exact Or.inl (mem_map_erase_of_ne key head r k h1 (by rw [hk]; exact hkk))
  · rw [HASH_REPLACE_absent key 0 head add hm]
    simp only [ne_eq, not_true_eq_false, if_false, List.map_append, List.map_cons,
      List.map_nil, List.mem_append, List.mem_singleton]
    exact or_comm

/-- The count after a successful `HASH_REPLACE`. -/
theorem HASH_REPLACE_count {N K : Type} [DecidableEq K] [DecidableEq N]
    (key : N → K) (head : List N) (add : N) :
    (key add ∉ head.map key →
        HASH_COUNT (HASH_REPLACE key 0 head add).1 = HASH_COUNT head + 1)
    ∧ (key add ∈ head.map key →
        HASH_COUNT (HASH_REPLACE key 0 head add).1 = HASH_COUNT head) := by
  constructor
  · intro hm
    rw [HASH_REPLACE_absent key 0 head add hm]
    simp [HASH_COUNT]
  · intro hm
    obtain ⟨r, hr, hk, heq⟩ := HASH_REPLACE_present key 0 head add hm
    rw [heq]
    have hpos : 0 < head.length := List.length_pos_of_mem hr
    simp only [ne_eq, not_true_eq_false, if_false, HASH_COUNT, List.length_append,
      List.length_erase_of_mem hr, List.length_singleton]
    omega

/-- The value `HASH_REPLACE` leaves in `errno` is the one of its adding step. -/
theorem HASH_REPLACE_errno {N K : Type} [DecidableEq K] [DecidableEq N]
    (key : N → K) (e : Int) (head : List N) (add : N) :
    (HASH_REPLACE key e head add).2.2 = e := by
  unfold HASH_REPLACE
  by_cases he : e = 0
  · simp [he]
  · simp [he]

/-! ## The operations of a table, as equations -/

theorem add_roa_eq (e : Int) (t : db_table) (new : hashable_roa) :
    add_roa e t new
      = (-e, { t with roas := (HASH_REPLACE hashable_roa.data e t.roas new).1 }) := by
  unfold add_roa
  simp only [HASH_REPLACE_errno]
  by_cases he : e = 0
  · simp [he]
  · simp [he]

theorem add_router_key_eq (e : Int) (t : db_table) (new : hashable_key) :
    add_router_key e t new
      = (-e, { t with
          router_keys := (HASH_REPLACE hashable_key.data e t.router_keys new).1 }) := by
  unfold add_router_key
  simp only [HASH_REPLACE_errno]
  by_cases he : e = 0
  · simp [he]
  · simp [he]

theorem rtrhandler_handle_roa_v4_eq (env : alloc_env) (t : db_table) (asn : Nat)
    (prefix4 : ipv4_prefix) (max_length : Nat) :
    rtrhandler_handle_roa_v4 env t asn prefix4 max_length
      = if env.malloc_ok = true then
          add_roa env.hash_errno t { data := vrp_v4 asn prefix4 max_length }
        else (pr_enomem, t) := by
  unfold rtrhandler_handle_roa_v4 create_roa
  cases env.malloc_ok <;> simp [vrp_v4]

theorem rtrhandler_handle_roa_v6_eq (env : alloc_env) (t : db_table) (asn : Nat)
    (prefix6 : ipv6_prefix) (max_length : Nat) :
    rtrhandler_handle_roa_v6 env t asn prefix6 max_length
      = if env.malloc_ok = true then
          add_roa env.hash_errno t { data := vrp_v6 asn prefix6 max_length }
        else (pr_enomem, t) := by
  unfold rtrhandler_handle_roa_v6 create_roa
  cases env.malloc_ok <;> simp [vrp_v6]

theorem rtrhandler_handle_router_key_eq (env : alloc_env) (t : db_table)
    (ski : List Nat) (as : Nat) (spk : List Nat) :
    rtrhandler_handle_router_key env t ski as spk
      = if env.malloc_ok = true then
          add_router_key env.hash_errno t { data := router_key_init ski as spk }
        else (pr_enomem, t) := by
  unfold rtrhandler_handle_router_key
  cases env.malloc_ok <;> simp

theorem pr_enomem_ne_zero : pr_enomem ≠ 0 := by decide

/-! ## Claims about insertion -/

/-- C6: a successful insert-or-replace (`add_roa`, `add_router_key` returning 0)
leaves the store containing the submitted value and every record it held
before; the count grows by exactly one when no equal record was present and is
unchanged when one was. -/
theorem insert_or_replace_effect (e1 e2 : Int) (t : db_table)
    (new : hashable_roa) (newk : hashable_key)
    (h1 : (add_roa e1 t new).1 = 0) (h2 : (add_router_key e2 t newk).1 = 0) :
    (new.data ∈ roa_records (add_roa e1 t new).2
      ∧ (∀ r, r ∈ roa_records t → r ∈ roa_records (add_roa e1 t new).2)
      ∧ (new.data ∉ roa_records t →
          db_table_roa_count (add_roa e1 t new).2 = db_table_roa_count t + 1)
      ∧ (new.data ∈ roa_records t →
          db_table_roa_count (add_roa e1 t new).2 = db_table_roa_count t))
    ∧ (newk.data ∈ router_key_records (add_router_key e2 t newk).2
      ∧ (∀ k, k ∈ router_key_records t →
          k ∈ router_key_records (add_router_key e2 t newk).2)
      ∧ (newk.data ∉ router_key_records t →
          db_table_router_key_count (add_router_key e2 t newk).2
            = db_table_router_key_count t + 1)
      ∧ (newk.data ∈ router_key_records t →
          db_table_router_key_count (add_router_key e2 t newk).2
            = db_table_router_key_count t)) := by
  rw [add_roa_eq] at h1
  rw [add_router_key_eq] at h2
  have z1 : e1 = 0 := by simpa using h1
  have z2 : e2 = 0 := by simpa using h2
  subst z1
  subst z2
  rw [add_roa_eq, add_router_key_eq]
  simp only [roa_records, router_key_records, db_table_roa_count,
    db_table_router_key_count]
  refine ⟨⟨?_, ?_, ?_, ?_⟩, ⟨?_, ?_, ?_, ?_⟩⟩
  · exact (HASH_REPLACE_mem hashable_roa.data t.roas new new.data).2 (Or.inl rfl)
  · intro r hr
    exact (HASH_REPLACE_mem hashable_roa.data t.roas new r).2 (Or.inr hr)
  · exact (HASH_REPLACE_count hashable_roa.data t.roas new).1
  · exact (HASH_REPLACE_count hashable_roa.data t.roas new).2
  · exact (HASH_REPLACE_mem hashable_key.data t.router_keys newk newk.data).2 (Or.inl rfl)
  · intro k hk
    exact (HASH_REPLACE_mem hashable_key.data t.router_keys newk k).2 (Or.inr hk)
  · exact (HASH_REPLACE_count hashable_key.data t.router_keys newk).1
  · exact (HASH_REPLACE_count hashable_key.data t.router_keys newk).2

/-- Witness of C6: a ROA that the table does not hold (the count grows by one)
and a Router Key that it holds (the count stays). -/
theorem insert_or_replace_effect_witness :
    (add_roa 0 table_keyed { data := roa_64501 }).1 = 0
    ∧ (add_router_key 0 table_keyed { data := key_64500 }).1 = 0
    ∧ db_table_roa_count (add_roa 0 table_keyed { data := roa_64501 }).2
        = db_table_roa_count table_keyed + 1
    ∧ db_table_router_key_count (add_router_key 0 table_keyed { data := key_64500 }).2
        = db_table_router_key_count table_keyed :=
  have h := insert_or_replace_effect 0 0 table_keyed { data := roa_64501 }
    { data := key_64500 } (by decide) (by decide)
  ⟨by decide, by decide, h.1.2.2.1 (by decide), h.2.2.2.2 (by decide)⟩

theorem repeat_fold_false (call : alloc_env → db_table → Int × db_table)
    (envs : List alloc_env) (t : db_table) :
    (envs.foldl (repeat_step call) (false, t)).1 = false := by
  induction envs generalizing t with
  | nil => rfl
  | cons env rest ih =>
    simp only [List.foldl_cons, repeat_step, Bool.false_and]
    exact ih _

/-- Repeating a call that, when it returns 0 on the table `t0` or on the table
`target`, leaves `target`: after at least one call, all returning 0, the table
is `target`. -/
theorem repeat_fold_target (call : alloc_env → db_table → Int × db_table)
    (t0 target : db_table)
    (hstep : ∀ env t, (t = t0 ∨ t = target) → (call env t).1 = 0 →
      (call env t).2 = target)
    (envs : List alloc_env) (b : Bool) (t : db_table) (ht : t = t0 ∨ t = target)
    (hne : envs ≠ [])
    (hok : (envs.foldl (repeat_step call) (b, t)).1 = true) :
    (envs.foldl (repeat_step call) (b, t)).2 = target := by
  induction envs generalizing b t with
  | nil => exact absurd rfl hne
  | cons env rest ih =>
    simp only [List.foldl_cons] at hok ⊢
    by_cases hr : (call env t).1 = 0
    · have h2 := hstep env t ht hr
      have hacc : repeat_step call (b, t) env = (b, target) := by
        simp [repeat_step, hr, h2]
      rw [hacc] at hok ⊢
      by_cases hrest : rest = []
      · subst hrest
        rfl
      · exact ih b target (Or.inr rfl) hrest hok
    · have hacc : repeat_step call (b, t) env = (false, (call env t).2) := by
        simp [repeat_step, hr]
      rw [hacc, repeat_fold_false] at hok
      exact absurd hok (by decide)

theorem roa_step_single (e : Int) (t : db_table) (v : vrp)
    (ht : t = { roas := [], router_keys := [] }
      ∨ t = { roas := [{ data := v }], router_keys := [] })
    (h : (add_roa e t { data := v }).1 = 0) :
    (add_roa e t { data := v }).2 = { roas := [{ data := v }], router_keys := [] } := by
  rw [add_roa_eq] at h ⊢
  have z : e = 0 := by simpa using h
  subst z
  rcases ht with ht | ht <;> subst ht <;> simp [HASH_REPLACE, HASH_FIND, HASH_DELETE]

theorem key_step_single (e : Int) (t : db_table) (v : router_key)
    (ht : t = { roas := [], router_keys := [] }
      ∨ t = { roas := [], router_keys := [{ data := v }] })
    (h : (add_router_key e t { data := v }).1 = 0) :
    (add_router_key e t { data := v }).2
      = { roas := [], router_keys := [{ data := v }] } := by
  rw [add_router_key_eq] at h ⊢
  have z : e = 0 := by simpa using h
  subst z
  rcases ht with ht | ht <;> subst ht <;> simp [HASH_REPLACE, HASH_FIND, HASH_DELETE]

/-- C5: on a freshly created table, `n ≥ 1` calls of `rtrhandler_handle_roa_v4`
with the same arguments, all returning 0, leave `db_table_roa_count` at 1 and
exactly one ROA, the record of the arguments; the same for
`rtrhandler_handle_roa_v6`, and for `rtrhandler_handle_router_key` with
`db_table_router_key_count`. -/
theorem repeated_insert_single (m : Bool) (t0 : db_table)
    (envs4 envs6 envsk : List alloc_env)
    (asn4 : Nat) (prefix4 : ipv4_prefix) (max4 : Nat)
    (asn6 : Nat) (prefix6 : ipv6_prefix) (max6 : Nat)
    (ski : List Nat) (as : Nat) (spk : List Nat)
    (h0 : db_table_create m = some t0)
    (n4 : 1 ≤ envs4.length) (n6 : 1 ≤ envs6.length) (nk : 1 ≤ envsk.length)
    (h4 : (repeat_roa_v4 envs4 t0 asn4 prefix4 max4).1 = true)
    (h6 : (repeat_roa_v6 envs6 t0 asn6 prefix6 max6).1 = true)
    (hk : (repeat_router_key envsk t0 ski as spk).1 = true) :
    (db_table_roa_count (repeat_roa_v4 envs4 t0 asn4 prefix4 max4).2 = 1
      ∧ roa_records (repeat_roa_v4 envs4 t0 asn4 prefix4 max4).2
          = [vrp_v4 asn4 prefix4 max4])
    ∧ (db_table_roa_count (repeat_roa_v6 envs6 t0 asn6 prefix6 max6).2 = 1
      ∧ roa_records (repeat_roa_v6 envs6 t0 asn6 prefix6 max6).2
          = [vrp_v6 asn6 prefix6 max6])
    ∧ (db_table_router_key_count (repeat_router_key envsk t0 ski as spk).2 = 1
      ∧ router_key_records (repeat_router_key envsk t0 ski as spk).2
          = [router_key_init ski as spk]) := by
  have ht0 : t0 = { roas := [], router_keys := [] } := by
    unfold db_table_create at h0
    cases m
    · simp at h0
    · simp at h0
      exact h0.symm
  subst ht0
  have ne4 : envs4 ≠ [] := by
    intro hc
    rw [hc] at n4
    exact absurd n4 (by decide)
  have ne6 : envs6 ≠ [] := by
    intro hc
    rw [hc] at n6
    exact absurd n6 (by decide)
  have nek : envsk ≠ [] := by
    intro hc
    rw [hc] at nk
    exact absurd nk (by decide)
  have r4 := repeat_fold_target
    (fun env t => rtrhandler_handle_roa_v4 env t asn4 prefix4 max4)
    { roas := [], router_keys := [] }
    { roas := [{ data := vrp_v4 asn4 prefix4 max4 }], router_keys := [] }
    (by
      intro env t ht h
      simp only [rtrhandler_handle_roa_v4_eq] at h ⊢
      cases hm : env.malloc_ok
      · rw [hm] at h
        exact absurd h pr_enomem_ne_zero
      · rw [hm] at h
        simp only [if_true] at h ⊢
        exact roa_step_single _ t _ ht h)
    envs4 true _ (Or.inl rfl) ne4 h4
  have r6 := repeat_fold_target
    (fun env t => rtrhandler_handle_roa_v6 env t asn6 prefix6 max6)
    { roas := [], router_keys := [] }
    { roas := [{ data := vrp_v6 asn6 prefix6 max6 }], router_keys := [] }
    (by
      intro env t ht h
      simp only [rtrhandler_handle_roa_v6_eq] at h ⊢
      cases hm : env.malloc_ok
      · rw [hm] at h
        exact absurd h pr_enomem_ne_zero
      · rw [hm] at h
        simp only [if_true] at h ⊢
        exact roa_step_single _ t _ ht h)
    envs6 true _ (Or.inl rfl) ne6 h6
  have rk := repeat_fold_target
    (fun env t => rtrhandler_handle_router_key env t ski as spk)
    { roas := [], router_keys := [] }
    { roas := [], router_keys := [{ data := router_key_init ski as spk }] }
    (by
      intro env t ht h
      simp only [rtrhandler_handle_router_key_eq] at h ⊢
      cases hm : env.malloc_ok
      · rw [hm] at h
        exact absurd h pr_enomem_ne_zero
      · rw [hm] at h
        simp only [if_true] at h ⊢
        exact key_step_single _ t _ ht h)
    envsk true _ (Or.inl rfl) nek hk
  have e4 : (repeat_roa_v4 envs4 { roas := [], router_keys := [] } asn4 prefix4 max4).2
      = { roas := [{ data := vrp_v4 asn4 prefix4 max4 }], router_keys := [] } := r4
  have e6 : (repeat_roa_v6 envs6 { roas := [], router_keys := [] } asn6 prefix6 max6).2
      = { roas := [{ data := vrp_v6 asn6 prefix6 max6 }], router_keys := [] } := r6
  have ek : (repeat_router_key envsk { roas := [], router_keys := [] } ski as spk).2
      = { roas := [], router_keys := [{ data := router_key_init ski as spk }] } := rk
  rw [e4, e6, ek]
  simp [db_table_roa_count, db_table_router_key_count, HASH_COUNT, roa_records,
    router_key_records]

/-- Witness of C5, with the scenario of the specification: the ROA of AS 1 for
203.0.113.0/24, maximum length 24, inserted twice; an IPv6 ROA inserted three
times; a Router Key inserted once. -/
theorem repeated_insert_single_witness :
    db_table_roa_count
        (repeat_roa_v4 [alloc_env.ok, alloc_env.ok] { roas := [], router_keys := [] }
          1 { addr := [203, 0, 113, 0], len := 24 } 24).2 = 1
    ∧ roa_records
        (repeat_roa_v4 [alloc_env.ok, alloc_env.ok] { roas := [], router_keys := [] }
          1 { addr := [203, 0, 113, 0], len := 24 } 24).2
        = [vrp_v4 1 { addr := [203, 0, 113, 0], len := 24 } 24] :=
  (repeated_insert_single true { roas := [], router_keys := [] }
    [alloc_env.ok, alloc_env.ok] [alloc_env.ok, alloc_env.ok, alloc_env.ok]
    [alloc_env.ok]
    1 { addr := [203, 0, 113, 0], len := 24 } 24
    2 { addr := [32, 1, 13, 184, 0, 0, 0, 0, 0, 0, 0, 0, 0, 0, 0, 0], len := 32 } 48
    [1, 2, 3] 64500 [4, 5]
    rfl (by decide) (by decide) (by decide) (by decide) (by decide) (by decide)).1

/-! ## The store invariant -/

theorem add_roa_invariant (e : Int) (t : db_table) (new : hashable_roa)
    (h : store_invariant t) : store_invariant (add_roa e t new).2 := by
  rw [add_roa_eq]
  exact ⟨HASH_REPLACE_nodup hashable_roa.data e t.roas new h.1, h.2⟩

theorem add_router_key_invariant (e : Int) (t : db_table) (new : hashable_key)
    (h : store_invariant t) : store_invariant (add_router_key e t new).2 := by
  rw [add_router_key_eq]
  exact ⟨h.1, HASH_REPLACE_nodup hashable_key.data e t.router_keys new h.2⟩

theorem remove_roa_invariant (t : db_table) (del : vrp) (h : store_invariant t) :
    store_invariant (db_table_remove_roa t del) := by
  unfold db_table_remove_roa
  cases hf : HASH_FIND hashable_roa.data t.roas del with
  | none => exact h
  | some ptr => exact ⟨nodup_map_erase hashable_roa.data t.roas ptr h.1, h.2⟩

theorem remove_router_key_invariant (t : db_table) (del : router_key)
    (h : store_invariant t) : store_invariant (db_table_remove_router_key t del) := by
  unfold db_table_remove_router_key
  cases hf : HASH_FIND hashable_key.data t.router_keys del with
  | none => exact h
  | some ptr => exact ⟨h.1, nodup_map_erase hashable_key.data t.router_keys ptr h.2⟩

/-- C7: in every table reachable from `db_table_create` by the handlers (failing
or not) and the removals, no two entries of the ROA store are equal and no two
entries of the Router Key store are equal. -/
theorem reachable_store_invariant (t : db_table) (h : Reachable t) :
    store_invariant t := by
  induction h with
  | create => exact ⟨List.nodup_nil, List.nodup_nil⟩
  | roa_v4 env t asn prefix4 max_length _ ih =>
    rw [rtrhandler_handle_roa_v4_eq]
    cases env.malloc_ok
    · exact ih
    · exact add_roa_invariant _ t _ ih
  | roa_v6 env t asn prefix6 max_length _ ih =>
    rw [rtrhandler_handle_roa_v6_eq]
    cases env.malloc_ok
    · exact ih
    · exact add_roa_invariant _ t _ ih
  | router_key env t ski as spk _ ih =>
    rw [rtrhandler_handle_router_key_eq]
    cases env.malloc_ok
    · exact ih
    · exact add_router_key_invariant _ t _ ih
  | remove_roa t del _ ih => exact remove_roa_invariant t del ih
  | remove_router_key t del _ ih => exact remove_router_key_invariant t del ih

/-- Witness of C7: the table after inserting the same ROA twice, then a Router
Key, then removing a ROA that is not there. -/
theorem reachable_store_invariant_witness :
    Reachable
      (db_table_remove_roa
        (rtrhandler_handle_router_key alloc_env.ok
          (rtrhandler_handle_roa_v4 alloc_env.ok
            (rtrhandler_handle_roa_v4 alloc_env.ok { roas := [], router_keys := [] }
              64500 { addr := [10, 0, 0, 0], len := 24 } 24).2
            64500 { addr := [10, 0, 0, 0], len := 24 } 24).2
          [1, 2, 3] 64500 [4, 5]).2
        roa_64501)
    ∧ store_invariant
      (db_table_remove_roa
        (rtrhandler_handle_router_key alloc_env.ok
          (rtrhandler_handle_roa_v4 alloc_env.ok
            (rtrhandler_handle_roa_v4 alloc_env.ok { roas := [], router_keys := [] }
              64500 { addr := [10, 0, 0, 0], len := 24 } 24).2
            64500 { addr := [10, 0, 0, 0], len := 24 } 24).2
          [1, 2, 3] 64500 [4, 5]).2
        roa_64501) :=
  have hr := Reachable.remove_roa _ roa_64501
    (Reachable.router_key alloc_env.ok _ [1, 2, 3] 64500 [4, 5]
      (Reachable.roa_v4 alloc_env.ok _ 64500 { addr := [10, 0, 0, 0], len := 24 } 24
        (Reachable.roa_v4 alloc_env.ok _ 64500 { addr := [10, 0, 0, 0], len := 24 } 24
          Reachable.create)))
  ⟨hr, reachable_store_invariant _ hr⟩

/-! ## Claims about removal -/

theorem HASH_DELETE_found {N K : Type} [DecidableEq K] [DecidableEq N]
    (key : N → K) (head : List N) (k : K) (ptr : N)
    (hn : (head.map key).Nodup) (hf : HASH_FIND key head k = some ptr) :
    HASH_COUNT (HASH_DELETE head ptr) + 1 = HASH_COUNT head
    ∧ HASH_FIND key (HASH_DELETE head ptr) k = none
    ∧ (∀ x, x ∈ head.map key → x ≠ k → x ∈ (HASH_DELETE head ptr).map key)
    ∧ (∀ x, x ∈ (HASH_DELETE head ptr).map key → x ∈ head.map key) := by
  obtain ⟨hm, hk⟩ := HASH_FIND_some key head k ptr hf
  have hpos : 0 < head.length := List.length_pos_of_mem hm
  refine ⟨?_, ?_, ?_, ?_⟩
  · simp only [HASH_COUNT, HASH_DELETE, List.length_erase_of_mem hm]
    omega
  · rw [HASH_FIND_eq_none_iff, ← hk]
    exact not_mem_map_erase key head ptr hn hm
  · intro x hx hne
    exact mem_map_erase_of_ne key head ptr x hx (by rw [hk]; exact hne)
  · intro x hx
    obtain ⟨n, hn1, rfl⟩ := List.mem_map.1 hx
    exact List.mem_map.2 ⟨n, List.mem_of_mem_erase hn1, rfl⟩

/-- C8: removing a record that no entry equals leaves the table as it was
(count and contents); removing a record that an entry equals decreases the count
by exactly one, the record is no longer found, every other record is still
there and none appears; for `db_table_remove_roa` and for
`db_table_remove_router_key`, on a table that satisfies the store invariant. -/
theorem remove_effect (t : db_table) (r : vrp) (k : router_key)
    (hinv : store_invariant t) :
    (r ∉ roa_records t → db_table_remove_roa t r = t)
    ∧ (r ∈ roa_records t →
        db_table_roa_count (db_table_remove_roa t r) + 1 = db_table_roa_count t
        ∧ HASH_FIND hashable_roa.data (db_table_remove_roa t r).roas r = none
        ∧ (∀ x, x ∈ roa_records t → x ≠ r → x ∈ roa_records (db_table_remove_roa t r))
        ∧ (∀ x, x ∈ roa_records (db_table_remove_roa t r) → x ∈ roa_records t)
        ∧ (db_table_remove_roa t r).router_keys = t.router_keys)
    ∧ (k ∉ router_key_records t → db_table_remove_router_key t k = t)
    ∧ (k ∈ router_key_records t →
        db_table_router_key_count (db_table_remove_router_key t k) + 1
          = db_table_router_key_count t
        ∧ HASH_FIND hashable_key.data (db_table_remove_router_key t k).router_keys k = none
        ∧ (∀ x, x ∈ router_key_records t → x ≠ k →
            x ∈ router_key_records (db_table_remove_router_key t k))
        ∧ (∀ x, x ∈ router_key_records (db_table_remove_router_key t k) →
            x ∈ router_key_records t)
        ∧ (db_table_remove_router_key t k).roas = t.roas) := by
  refine ⟨?_, ?_, ?_, ?_⟩
  · intro hr
    have hf := (HASH_FIND_eq_none_iff hashable_roa.data t.roas r).2 hr
    simp only [db_table_remove_roa, hf]
  · intro hr
    cases hf : HASH_FIND hashable_roa.data t.roas r with
    | none => exact absurd hr ((HASH_FIND_eq_none_iff hashable_roa.data t.roas r).1 hf)
    | some ptr =>
      obtain ⟨c1, c2, c3, c4⟩ := HASH_DELETE_found hashable_roa.data t.roas r ptr hinv.1 hf
      simp only [db_table_remove_roa, hf, db_table_roa_count, roa_records]
      exact ⟨c1, c2, c3, c4, trivial⟩
  · intro hk
    have hf := (HASH_FIND_eq_none_iff hashable_key.data t.router_keys k).2 hk
    simp only [db_table_remove_router_key, hf]
  · intro hk
    cases hf : HASH_FIND hashable_key.data t.router_keys k with
    | none =>
      exact absurd hk ((HASH_FIND_eq_none_iff hashable_key.data t.router_keys k).1 hf)
    | some ptr =>
      obtain ⟨c1, c2, c3, c4⟩ :=
        HASH_DELETE_found hashable_key.data t.router_keys k ptr hinv.2 hf
      simp only [db_table_remove_router_key, hf, db_table_router_key_count,
        router_key_records]
      exact ⟨c1, c2, c3, c4, trivial⟩

/-- Witness of C8: from a table with two ROAs, removing a ROA that it holds, and
removing a Router Key that it does not hold. -/
theorem remove_effect_witness :
    store_invariant table_two
    ∧ db_table_roa_count (db_table_remove_roa table_two roa_64500) + 1
        = db_table_roa_count table_two
    ∧ HASH_FIND hashable_roa.data (db_table_remove_roa table_two roa_64500).roas roa_64500
        = none
    ∧ db_table_remove_router_key table_two key_64500 = table_two :=
  have hinv : store_invariant table_two := ⟨by decide, by decide⟩
  have h := remove_effect table_two roa_64500 key_64500 hinv
  have hp := h.2.1 (by decide)
  ⟨hinv, hp.1, hp.2.1, h.2.2.1 (by decide)⟩

/-! ## Claims about failures of insertion -/

/-- A handler that fails without having found an equal entry (`malloc` failed,
or the index failed to add a record that the store did not hold) leaves the
table as it was. -/
theorem failed_insert_unchanged_when_absent (env : alloc_env) (t : db_table)
    (asn : Nat) (prefix4 : ipv4_prefix) (max_length : Nat)
    (hfail : (rtrhandler_handle_roa_v4 env t asn prefix4 max_length).1 ≠ 0)
    (habs : env.malloc_ok = false ∨ vrp_v4 asn prefix4 max_length ∉ roa_records t) :
    (rtrhandler_handle_roa_v4 env t asn prefix4 max_length).2 = t := by
  rw [rtrhandler_handle_roa_v4_eq] at hfail ⊢
  cases hm : env.malloc_ok
  · simp
  · rw [hm] at hfail habs
    simp only [if_true] at hfail ⊢
    rcases habs with habs | habs
    · exact absurd habs (by decide)
    · rw [add_roa_eq] at hfail ⊢
      have he : env.hash_errno ≠ 0 := by simpa using hfail
      have := HASH_REPLACE_absent hashable_roa.data env.hash_errno t.roas
        { data := vrp_v4 asn prefix4 max_length } habs
      simp only [this, he, ne_eq, not_false_eq_true, if_true]

/-- C10: each of the three handlers returns a non-zero result exactly when the
allocation of the entry or the insertion into the hash index failed, whatever
the values submitted; it returns 0 when both succeed, the negated value of
`errno` when the index fails, and the result of `pr_enomem` when `malloc`
fails. -/
theorem handlers_result (env : alloc_env) (t : db_table)
    (asn4 : Nat) (prefix4 : ipv4_prefix) (max4 : Nat)
    (asn6 : Nat) (prefix6 : ipv6_prefix) (max6 : Nat)
    (ski : List Nat) (as : Nat) (spk : List Nat) :
    (((rtrhandler_handle_roa_v4 env t asn4 prefix4 max4).1 ≠ 0
        ↔ env.malloc_ok = false ∨ env.hash_errno ≠ 0)
      ∧ (env.malloc_ok = true → env.hash_errno = 0 →
          (rtrhandler_handle_roa_v4 env t asn4 prefix4 max4).1 = 0)
      ∧ (env.malloc_ok = true → env.hash_errno ≠ 0 →
          (rtrhandler_handle_roa_v4 env t asn4 prefix4 max4).1 = -env.hash_errno)
      ∧ (env.malloc_ok = false →
          (rtrhandler_handle_roa_v4 env t asn4 prefix4 max4).1 = pr_enomem))
    ∧ (((rtrhandler_handle_roa_v6 env t asn6 prefix6 max6).1 ≠ 0
        ↔ env.malloc_ok = false ∨ env.hash_errno ≠ 0)
      ∧ (env.malloc_ok = true → env.hash_errno = 0 →
          (rtrhandler_handle_roa_v6 env t asn6 prefix6 max6).1 = 0)
      ∧ (env.malloc_ok = true → env.hash_errno ≠ 0 →
          (rtrhandler_handle_roa_v6 env t asn6 prefix6 max6).1 = -env.hash_errno)
      ∧ (env.malloc_ok = false →
          (rtrhandler_handle_roa_v6 env t asn6 prefix6 max6).1 = pr_enomem))
    ∧ (((rtrhandler_handle_router_key env t ski as spk).1 ≠ 0
        ↔ env.malloc_ok = false ∨ env.hash_errno ≠ 0)
      ∧ (env.malloc_ok = true → env.hash_errno = 0 →
          (rtrhandler_handle_router_key env t ski as spk).1 = 0)
      ∧ (env.malloc_ok = true → env.hash_errno ≠ 0 →
          (rtrhandler_handle_router_key env t ski as spk).1 = -env.hash_errno)
      ∧ (env.malloc_ok = false →
          (rtrhandler_handle_router_key env t ski as spk).1 = pr_enomem)) := by
  rw [rtrhandler_handle_roa_v4_eq, rtrhandler_handle_roa_v6_eq,
    rtrhandler_handle_router_key_eq]
  simp only [add_roa_eq, add_router_key_eq]
  have hp := pr_enomem_ne_zero
  cases hm : env.malloc_ok
  · simp [hp]
  · simp

/-! ## Applying a diff -/

theorem mem_remove_roa (t : db_table) (r x : vrp) (hinv : store_invariant t) :
    x ∈ roa_records (db_table_remove_roa t r) ↔ x ∈ roa_records t ∧ x ≠ r := by
  unfold db_table_remove_roa
  cases hf : HASH_FIND hashable_roa.data t.roas r with
  | none =>
    have hn := (HASH_FIND_eq_none_iff hashable_roa.data t.roas r).1 hf
    constructor
    · intro hx
      exact ⟨hx, fun hc => hn (hc ▸ hx)⟩
    · intro hx
      exact hx.1
  | some ptr =>
    obtain ⟨_, c2, c3, c4⟩ := HASH_DELETE_found hashable_roa.data t.roas r ptr hinv.1 hf
    have c2n := (HASH_FIND_eq_none_iff hashable_roa.data _ r).1 c2
    constructor
    · intro hx
      exact ⟨c4 x hx, fun hc => c2n (hc ▸ hx)⟩
    · intro hx
      exact c3 x hx.1 hx.2

theorem mem_remove_router_key (t : db_table) (k x : router_key)
    (hinv : store_invariant t) :
    x ∈ router_key_records (db_table_remove_router_key t k)
      ↔ x ∈ router_key_records t ∧ x ≠ k := by
  unfold db_table_remove_router_key
  cases hf : HASH_FIND hashable_key.data t.router_keys k with
  | none =>
    have hn := (HASH_FIND_eq_none_iff hashable_key.data t.router_keys k).1 hf
    constructor
    · intro hx
      exact ⟨hx, fun hc => hn (hc ▸ hx)⟩
    · intro hx
      exact hx.1
  | some ptr =>
    obtain ⟨_, c2, c3, c4⟩ :=
      HASH_DELETE_found hashable_key.data t.router_keys k ptr hinv.2 hf
    have c2n := (HASH_FIND_eq_none_iff hashable_key.data _ k).1 c2
    constructor
    · intro hx
      exact ⟨c4 x hx, fun hc => c2n (hc ▸ hx)⟩
    · intro hx
      exact c3 x hx.1 hx.2

theorem remove_roa_keys (t : db_table) (r : vrp) :
    (db_table_remove_roa t r).router_keys = t.router_keys := by
  unfold db_table_remove_roa
  cases HASH_FIND hashable_roa.data t.roas r <;> rfl

theorem remove_router_key_roas (t : db_table) (k : router_key) :
    (db_table_remove_router_key t k).roas = t.roas := by
  unfold db_table_remove_router_key
  cases HASH_FIND hashable_key.data t.router_keys k <;> rfl

/-- Applying announcements of ROAs: the records announced join the ROA store,
the Router Key store stays. -/
theorem apply_announce_roas (rs : List vrp) (t : db_table) (hinv : store_invariant t) :
    store_invariant (apply_deltas t (rs.map (fun r => delta_entry.roa r FLAG_ANNOUNCEMENT)))
    ∧ (∀ x, x ∈ roa_records
          (apply_deltas t (rs.map (fun r => delta_entry.roa r FLAG_ANNOUNCEMENT)))
        ↔ x ∈ rs ∨ x ∈ roa_records t)
    ∧ (apply_deltas t (rs.map (fun r => delta_entry.roa r FLAG_ANNOUNCEMENT))).router_keys
        = t.router_keys := by
  induction rs generalizing t with
  | nil => simp [apply_deltas, hinv]
  | cons r rest ih =>
    have hstep : apply_delta t (delta_entry.roa r FLAG_ANNOUNCEMENT)
        = (add_roa 0 t { data := r }).2 := by
      simp [apply_delta, FLAG_ANNOUNCEMENT, FLAG_WITHDRAWAL]
    have hi := add_roa_invariant 0 t { data := r } hinv
    obtain ⟨i1, i2, i3⟩ := ih (add_roa 0 t { data := r }).2 hi
    simp only [apply_deltas, List.map_cons, List.foldl_cons, hstep] at i1 i2 i3 ⊢
    refine ⟨i1, ?_, ?_⟩
    · intro x
      rw [i2 x, add_roa_eq]
      simp only [roa_records]
      rw [HASH_REPLACE_mem hashable_roa.data t.roas { data := r } x]
      simp only [List.mem_cons]
      tauto
    · rw [i3, add_roa_eq]

/-- Applying withdrawals of ROAs: the records withdrawn leave the ROA store, the
Router Key store stays. -/
theorem apply_withdraw_roas (rs : List vrp) (t : db_table) (hinv : store_invariant t) :
    store_invariant (apply_deltas t (rs.map (fun r => delta_entry.roa r FLAG_WITHDRAWAL)))
    ∧ (∀ x, x ∈ roa_records
          (apply_deltas t (rs.map (fun r => delta_entry.roa r FLAG_WITHDRAWAL)))
        ↔ x ∈ roa_records t ∧ x ∉ rs)
    ∧ (apply_deltas t (rs.map (fun r => delta_entry.roa r FLAG_WITHDRAWAL))).router_keys
        = t.router_keys := by
  induction rs generalizing t with
  | nil => simp [apply_deltas, hinv]
  | cons r rest ih =>
    have hstep : apply_delta t (delta_entry.roa r FLAG_WITHDRAWAL)
        = db_table_remove_roa t r := by
      simp [apply_delta]
    have hi := remove_roa_invariant t r hinv
    obtain ⟨i1, i2, i3⟩ := ih (db_table_remove_roa t r) hi
    simp only [apply_deltas, List.map_cons, List.foldl_cons, hstep] at i1 i2 i3 ⊢
    refine ⟨i1, ?_, ?_⟩
    · intro x
      rw [i2 x, mem_remove_roa t r x hinv]
      simp only [List.mem_cons]
      tauto
    · rw [i3, remove_roa_keys]

/-- Applying announcements of Router Keys. -/
theorem apply_announce_keys (ks : List router_key) (t : db_table)
    (hinv : store_invariant t) :
    store_invariant (apply_deltas t (ks.map (fun k => delta_entry.key k FLAG_ANNOUNCEMENT)))
    ∧ (∀ x, x ∈ router_key_records
          (apply_deltas t (ks.map (fun k => delta_entry.key k FLAG_ANNOUNCEMENT)))
        ↔ x ∈ ks ∨ x ∈ router_key_records t)
    ∧ (apply_deltas t (ks.map (fun k => delta_entry.key k FLAG_ANNOUNCEMENT))).roas
        = t.roas := by
  induction ks generalizing t with
  | nil => simp [apply_deltas, hinv]
  | cons k rest ih =>
    have hstep : apply_delta t (delta_entry.key k FLAG_ANNOUNCEMENT)
        = (add_router_key 0 t { data := k }).2 := by
      simp [apply_delta, FLAG_ANNOUNCEMENT, FLAG_WITHDRAWAL]
    have hi := add_router_key_invariant 0 t { data := k } hinv
    obtain ⟨i1, i2, i3⟩ := ih (add_router_key 0 t { data := k }).2 hi
    simp only [apply_deltas, List.map_cons, List.foldl_cons, hstep] at i1 i2 i3 ⊢
    refine ⟨i1, ?_, ?_⟩
    · intro x
      rw [i2 x, add_router_key_eq]
      simp only [router_key_records]
      rw [HASH_REPLACE_mem hashable_key.data t.router_keys { data := k } x]
      simp only [List.mem_cons]
      tauto
    · rw [i3, add_router_key_eq]

/-- Applying withdrawals of Router Keys. -/
theorem apply_withdraw_keys (ks : List router_key) (t : db_table)
    (hinv : store_invariant t) :
    store_invariant (apply_deltas t (ks.map (fun k => delta_entry.key k FLAG_WITHDRAWAL)))
    ∧ (∀ x, x ∈ router_key_records
          (apply_deltas t (ks.map (fun k => delta_entry.key k FLAG_WITHDRAWAL)))
        ↔ x ∈ router_key_records t ∧ x ∉ ks)
    ∧ (apply_deltas t (ks.map (fun k => delta_entry.key k FLAG_WITHDRAWAL))).roas
        = t.roas := by
  induction ks generalizing t with
  | nil => simp [apply_deltas, hinv]
  | cons k rest ih =>
    have hstep : apply_delta t (delta_entry.key k FLAG_WITHDRAWAL)
        = db_table_remove_router_key t k := by
      simp [apply_delta]
    have hi := remove_router_key_invariant t k hinv
    obtain ⟨i1, i2, i3⟩ := ih (db_table_remove_router_key t k) hi
    simp only [apply_deltas, List.map_cons, List.foldl_cons, hstep] at i1 i2 i3 ⊢
    refine ⟨i1, ?_, ?_⟩
    · intro x
      rw [i2 x, mem_remove_router_key t k x hinv]
      simp only [List.mem_cons]
      tauto
    · rw [i3, remove_router_key_roas]

theorem apply_deltas_append (t : db_table) (a b : List delta_entry) :
    apply_deltas t (a ++ b) = apply_deltas (apply_deltas t a) b := by
  simp [apply_deltas, List.foldl_append]

/-- Applying the four segments of the diff of `old` and `new` to `old` gives a
table with the records of `new`. -/
theorem apply_diff_entries (old new : db_table) (hold : store_invariant old) :
    store_invariant (apply_deltas old (diff_entries old new))
    ∧ (∀ x, x ∈ roa_records (apply_deltas old (diff_entries old new))
        ↔ x ∈ roa_records new)
    ∧ (∀ x, x ∈ router_key_records (apply_deltas old (diff_entries old new))
        ↔ x ∈ router_key_records new) := by
  unfold diff_entries
  rw [apply_deltas_append, apply_deltas_append, apply_deltas_append]
  obtain ⟨a1, a2, a3⟩ := apply_announce_roas (roas_missing new.roas old.roas) old hold
  obtain ⟨b1, b2, b3⟩ := apply_withdraw_roas (roas_missing old.roas new.roas) _ a1
  obtain ⟨c1, c2, c3⟩ :=
    apply_announce_keys (keys_missing new.router_keys old.router_keys) _ b1
  obtain ⟨d1, d2, d3⟩ :=
    apply_withdraw_keys (keys_missing old.router_keys new.router_keys) _ c1
  refine ⟨d1, ?_, ?_⟩
  · intro x
    have e1 : ∀ u v : db_table, u.roas = v.roas → roa_records u = roa_records v :=
      fun u v huv => by simp only [roa_records, huv]
    rw [e1 _ _ d3, e1 _ _ c3, b2 x, a2 x, mem_roas_missing, mem_roas_missing]
    simp only [roa_records]
    tauto
  · intro x
    have e2 : ∀ u v : db_table, u.router_keys = v.router_keys →
        router_key_records u = router_key_records v :=
      fun u v huv => by simp only [router_key_records, huv]
    rw [d2 x, c2 x, e2 _ _ b3, e2 _ _ a3, mem_keys_missing, mem_keys_missing]
    simp only [router_key_records]
    tauto

/-- C4: when `compute_deltas old new` returns 0, applying the entries of its
sink to `old` (each WITHDRAW removed with the removal of the table, each
ANNOUNCE inserted with its insert-or-replace) gives a table whose ROAs are
exactly those of `new` and whose Router Keys are exactly those of `new`: the
same records, the same counts. Both tables satisfy the store invariant. -/
theorem compute_deltas_apply (env : sink_env) (old new : db_table)
    (result : Option deltas) (hold : store_invariant old) (hnew : store_invariant new)
    (h : (compute_deltas env old new result).ret = 0) :
    ∃ d, (compute_deltas env old new result).result = some d
      ∧ (∀ x, x ∈ roa_records (apply_deltas old d.entries) ↔ x ∈ roa_records new)
      ∧ (∀ x, x ∈ router_key_records (apply_deltas old d.entries)
          ↔ x ∈ router_key_records new)
      ∧ (roa_records (apply_deltas old d.entries)).Perm (roa_records new)
      ∧ (router_key_records (apply_deltas old d.entries)).Perm (router_key_records new)
      ∧ db_table_roa_count (apply_deltas old d.entries) = db_table_roa_count new
      ∧ db_table_router_key_count (apply_deltas old d.entries)
          = db_table_router_key_count new := by
  obtain ⟨d, hd, he⟩ := compute_deltas_ok env old new result h
  obtain ⟨i1, i2, i3⟩ := apply_diff_entries old new hold
  rw [← he] at i1 i2 i3
  have p1 := (List.perm_ext_iff_of_nodup i1.1 hnew.1).2 i2
  have p2 := (List.perm_ext_iff_of_nodup i1.2 hnew.2).2 i3
  refine ⟨d, hd, i2, i3, p1, p2, ?_, ?_⟩
  · have := p1.length_eq
    simpa [roa_records, db_table_roa_count, HASH_COUNT] using this
  · have := p2.length_eq
    simpa [router_key_records, db_table_router_key_count, HASH_COUNT] using this

/-- Witness of C4: from a table with one ROA and one Router Key to a table with
two ROAs and no Router Key. -/
theorem compute_deltas_apply_witness :
    store_invariant table_keyed ∧ store_invariant table_two
    ∧ (compute_deltas sink_env.ok table_keyed table_two none).ret = 0
    ∧ ∃ d, (compute_deltas sink_env.ok table_keyed table_two none).result = some d
      ∧ (∀ x, x ∈ roa_records (apply_deltas table_keyed d.entries)
          ↔ x ∈ roa_records table_two)
      ∧ (∀ x, x ∈ router_key_records (apply_deltas table_keyed d.entries)
          ↔ x ∈ router_key_records table_two)
      ∧ (roa_records (apply_deltas table_keyed d.entries)).Perm (roa_records table_two)
      ∧ (router_key_records (apply_deltas table_keyed d.entries)).Perm
          (router_key_records table_two)
      ∧ db_table_roa_count (apply_deltas table_keyed d.entries)
          = db_table_roa_count table_two
      ∧ db_table_router_key_count (apply_deltas table_keyed d.entries)
          = db_table_router_key_count table_two :=
  have h1 : store_invariant table_keyed := ⟨by decide, by decide⟩
  have h2 : store_invariant table_two := ⟨by decide, by decide⟩
  ⟨h1, h2, by decide,
    compute_deltas_apply sink_env.ok table_keyed table_two none h1 h2 (by decide)⟩

/-- The application of C4's witness, evaluated: the table obtained is the new
table itself. -/
theorem applied_diff_evaluated :
    apply_deltas table_keyed
      (outcome_entries (compute_deltas sink_env.ok table_keyed table_two none))
      = table_two := by
  decide

/-! ## The diff as one sequence of appends -/

theorem add_roa_deltas_eq_append (env : sink_env) (roas1 roas2 : List hashable_roa)
    (d : deltas) (op : Int) :
    add_roa_deltas env roas1 roas2 d op
      = append_all env d ((roas_missing roas1 roas2).map (fun r => delta_entry.roa r op)) := by
  induction roas1 generalizing d with
  | nil => simp [add_roa_deltas, roas_missing, append_all]
  | cons n1 rest ih =>
    cases hf : HASH_FIND hashable_roa.data roas2 n1.data with
    | none =>
      rw [roas_missing_cons_none n1 rest roas2 hf]
      simp only [add_roa_deltas, hf, List.map_cons, append_all, deltas_add_roa]
      by_cases he : (deltas_add env d (delta_entry.roa n1.data op)).1 = 0
      · simp only [he, ne_eq, not_true_eq_false, if_false]
        exact ih _
      · simp only [he, ne_eq, not_false_eq_true, if_true]
    | some n2 =>
      rw [roas_missing_cons_some n1 n2 rest roas2 hf]
      simp only [add_roa_deltas, hf]
      exact ih _

theorem add_router_key_deltas_eq_append (env : sink_env)
    (keys1 keys2 : List hashable_key) (d : deltas) (op : Int) :
    add_router_key_deltas env keys1 keys2 d op
      = append_all env d ((keys_missing keys1 keys2).map (fun k => delta_entry.key k op)) := by
  induction keys1 generalizing d with
  | nil => simp [add_router_key_deltas, keys_missing, append_all]
  | cons n1 rest ih =>
    cases hf : HASH_FIND hashable_key.data keys2 n1.data with
    | none =>
      rw [keys_missing_cons_none n1 rest keys2 hf]
      simp only [add_router_key_deltas, hf, List.map_cons, append_all,
        add_router_key_delta, deltas_add_router_key]
      by_cases he : (deltas_add env d (delta_entry.key n1.data op)).1 = 0
      · simp only [he, ne_eq, not_true_eq_false, if_false]
        exact ih _
      · simp only [he, ne_eq, not_false_eq_true, if_true]
    | some n2 =>
      rw [keys_missing_cons_some n1 n2 rest keys2 hf]
      simp only [add_router_key_deltas, hf]
      exact ih _

theorem append_all_append (env : sink_env) (d : deltas) (a b : List delta_entry) :
    append_all env d (a ++ b)
      = if (append_all env d a).1 ≠ 0 then append_all env d a
        else append_all env (append_all env d a).2 b := by
  induction a generalizing d with
  | nil => simp [append_all]
  | cons e rest ih =>
    simp only [List.cons_append, append_all]
    by_cases he : (deltas_add env d e).1 = 0
    · simp only [he, ne_eq, not_true_eq_false, if_false]
      exact ih _
    · simp only [he, ne_eq, not_false_eq_true, if_true]

/-- The function `compute_deltas` is: create the sink, append the four segments
of the diff until an append fails, then release the sink or hand it over. -/
theorem compute_deltas_eq (env : sink_env) (old new : db_table)
    (result : Option deltas) :
    compute_deltas env old new result
      = if env.create_error ≠ 0 then
          { ret := env.create_error, result := result, sink := none }
        else if (append_all env fresh_sink (diff_entries old new)).1 ≠ 0 then
          { ret := (append_all env fresh_sink (diff_entries old new)).1,
            result := result,
            sink := some (deltas_refput (append_all env fresh_sink (diff_entries old new)).2) }
        else
          { ret := 0,
            result := some (append_all env fresh_sink (diff_entries old new)).2,
            sink := some (append_all env fresh_sink (diff_entries old new)).2 } := by
  unfold compute_deltas deltas_create
  by_cases hc : env.create_error = 0
  · simp only [hc, ne_eq, not_true_eq_false, if_false]
    simp only [add_roa_deltas_eq_append, add_router_key_deltas_eq_append]
    unfold diff_entries
    rw [append_all_append, append_all_append, append_all_append]
    simp only [fresh_sink]
    by_cases h1 : (append_all env { entries := [], references := 1, add_calls := 0 }
        ((roas_missing new.roas old.roas).map
          (fun r => delta_entry.roa r FLAG_ANNOUNCEMENT))).1 = 0
    · simp only [h1, ne_eq, not_true_eq_false, if_false]
      by_cases h2 : (append_all env
          (append_all env { entries := [], references := 1, add_calls := 0 }
            ((roas_missing new.roas old.roas).map
              (fun r => delta_entry.roa r FLAG_ANNOUNCEMENT))).2
          ((roas_missing old.roas new.roas).map
            (fun r => delta_entry.roa r FLAG_WITHDRAWAL))).1 = 0
      · simp only [h2, ne_eq, not_true_eq_false, if_false]
        by_cases h3 : (append_all env
            (append_all env
              (append_all env { entries := [], references := 1, add_calls := 0 }
                ((roas_missing new.roas old.roas).map
                  (fun r => delta_entry.roa r FLAG_ANNOUNCEMENT))).2
              ((roas_missing old.roas new.roas).map
                (fun r => delta_entry.roa r FLAG_WITHDRAWAL))).2
            ((keys_missing new.router_keys old.router_keys).map
              (fun k => delta_entry.key k FLAG_ANNOUNCEMENT))).1 = 0
        · simp only [h3, ne_eq, not_true_eq_false, if_false]
        · simp only [h3, ne_eq, not_false_eq_true, if_true]
      · simp only [h2, ne_eq, not_false_eq_true, if_true]
    · simp only [h1, ne_eq, not_false_eq_true, if_true]
  · simp only [hc, ne_eq, not_false_eq_true, if_true]

/-- Appends that all succeed: the entries are all in the sink, in order. -/
theorem append_all_ok (env : sink_env) (d : deltas) (es : List delta_entry)
    (h : ∀ j, j < es.length → env.add_error (d.add_calls + j) = 0) :
    append_all env d es
      = (0, { entries := d.entries ++ es, references := d.references,
              add_calls := d.add_calls + es.length }) := by
  induction es generalizing d with
  | nil => simp [append_all]
  | cons e rest ih =>
    have h0 : env.add_error d.add_calls = 0 := by
      have := h 0 (by simp)
      simpa using this
    simp only [append_all, deltas_add, h0, ne_eq, not_true_eq_false, if_false]
    rw [ih]
    · simp [Nat.add_assoc, Nat.add_comm 1]
    · intro j hj
      have := h (j + 1) (by simp only [List.length_cons]; omega)
      simp only at this ⊢
      rw [show d.add_calls + 1 + j = d.add_calls + (j + 1) by omega]
      exact this

/-- Appends of which the one after `k` successful ones fails: the first `k`
entries are in the sink, the failing attempt is the last one, its error is the
result. -/
theorem append_all_fail (env : sink_env) (d : deltas) (es : List delta_entry)
    (k : Nat) (hk : k < es.length)
    (hfirst : ∀ j, j < k → env.add_error (d.add_calls + j) = 0)
    (hfail : env.add_error (d.add_calls + k) ≠ 0) :
    append_all env d es
      = (env.add_error (d.add_calls + k),
          { entries := d.entries ++ es.take k, references := d.references,
            add_calls := d.add_calls + k + 1 }) := by
  induction es generalizing d k with
  | nil => simp at hk
  | cons e rest ih =>
    cases k with
    | zero =>
      have hf : env.add_error d.add_calls ≠ 0 := by simpa using hfail
      simp [append_all, deltas_add, hf]
    | succ k =>
      have h0 : env.add_error d.add_calls = 0 := by
        have := hfirst 0 (by omega)
        simpa using this
      simp only [append_all, deltas_add, h0, ne_eq, not_true_eq_false, if_false]
      have hk1 : k < rest.length := by
        simp only [List.length_cons] at hk
        omega
      rw [ih _ k hk1]
      · simp only [List.take_succ_cons, List.append_assoc, List.singleton_append]
        rw [show d.add_calls + 1 + k = d.add_calls + (k + 1) by omega]
      · intro j hj
        have := hfirst (j + 1) (by omega)
        simp only
        rw [show d.add_calls + 1 + j = d.add_calls + (j + 1) by omega]
        exact this
      · simp only
        rw [show d.add_calls + 1 + k = d.add_calls + (k + 1) by omega]
        exact hfail

/-- Whatever the sink answers, the entries it holds afterwards are what it held
followed by a prefix of the entries submitted, the whole of them when the result
is 0; the reference count is not touched. -/
theorem append_all_prefix (env : sink_env) (d : deltas) (es : List delta_entry) :
    ∃ k, k ≤ es.length
      ∧ (append_all env d es).2.entries = d.entries ++ es.take k
      ∧ (append_all env d es).2.references = d.references
      ∧ ((append_all env d es).1 = 0 → k = es.length) := by
  induction es generalizing d with
  | nil => exact ⟨0, by simp [append_all]⟩
  | cons e rest ih =>
    by_cases h0 : env.add_error d.add_calls = 0
    · obtain ⟨k, hk, h1, h2, h3⟩ := ih
        { entries := d.entries ++ [e], references := d.references,
          add_calls := d.add_calls + 1 }
      refine ⟨k + 1, by simp only [List.length_cons]; omega, ?_, ?_, ?_⟩
      · simp only [append_all, deltas_add, h0, ne_eq, not_true_eq_false, if_false]
        rw [h1]
        simp
      · simp only [append_all, deltas_add, h0, ne_eq, not_true_eq_false, if_false]
        rw [h2]
      · simp only [append_all, deltas_add, h0, ne_eq, not_true_eq_false, if_false]
        intro hz
        rw [h3 hz]
        simp
    · refine ⟨0, by omega, ?_, ?_, ?_⟩
      · simp [append_all, deltas_add, h0]
      · simp [append_all, deltas_add, h0]
      · simp [append_all, deltas_add, h0]

/-! ## Claims about the failures and the success of the diff -/

/-- C11: when `deltas_create` has succeeded and the append attempted after `k`
successful ones fails with `e` (in whichever of the four passes it falls),
`compute_deltas` attempts no further append (the failing attempt, number
`k + 1`, is the last, and the sink holds the first `k` entries), releases the
sink once (its reference count goes from 1 to 0), returns `e`, and leaves
`*result` as it was; when `deltas_create` fails, its error is returned, no sink
exists and `*result` is as it was. -/
theorem compute_deltas_first_failure (env : sink_env) (old new : db_table)
    (result : Option deltas) (k : Nat)
    (hc : env.create_error = 0)
    (hk : k < (diff_entries old new).length)
    (hfirst : ∀ j, j < k → env.add_error j = 0)
    (hfail : env.add_error k ≠ 0) :
    compute_deltas env old new result
      = { ret := env.add_error k, result := result,
          sink := some { entries := (diff_entries old new).take k, references := 0,
                         add_calls := k + 1 } }
    ∧ ∀ env2 : sink_env, env2.create_error ≠ 0 →
        compute_deltas env2 old new result
          = { ret := env2.create_error, result := result, sink := none } := by
  constructor
  · have hf := append_all_fail env fresh_sink (diff_entries old new) k hk
      (by simpa [fresh_sink] using hfirst) (by simpa [fresh_sink] using hfail)
    rw [compute_deltas_eq, hf]
    simp [hc, fresh_sink, hfail, deltas_refput]
  · intro env2 h2
    rw [compute_deltas_eq]
    simp [h2]

/-- Witness of C11: the two tables differ in a ROA and in a Router Key, so each
of the four passes has one entry to append; the third append, in the third pass,
fails with `-ENOMEM`. -/
theorem compute_deltas_first_failure_witness :
    compute_deltas (sink_env.fail_at 2 (-ENOMEM)) table_before table_after none
      = { ret := -ENOMEM, result := none,
          sink := some { entries := [delta_entry.roa roa_64501 FLAG_ANNOUNCEMENT,
                                     delta_entry.roa roa_64500 FLAG_WITHDRAWAL],
                         references := 0, add_calls := 3 } } :=
  (compute_deltas_first_failure (sink_env.fail_at 2 (-ENOMEM)) table_before
    table_after none 2 rfl (by decide)
    (by
      intro j hj
      have hne : j ≠ 2 := by omega
      simp [sink_env.fail_at, hne])
    (by decide)).1

/-- C12: when `deltas_create` and every append succeed, `compute_deltas` returns
0 and stores in `*result` the sink it created, which holds the entries of the
four passes and still has its one reference (it was not released); and, under
any behaviour of the sink, `*result` receives a sink exactly when the result is
0: with a non-zero result `*result` is as before the call. -/
theorem compute_deltas_success (env : sink_env) (old new : db_table)
    (result : Option deltas)
    (hc : env.create_error = 0)
    (hall : ∀ j, j < (diff_entries old new).length → env.add_error j = 0) :
    compute_deltas env old new result
      = { ret := 0,
          result := some { entries := diff_entries old new, references := 1,
                           add_calls := (diff_entries old new).length },
          sink := some { entries := diff_entries old new, references := 1,
                         add_calls := (diff_entries old new).length } }
    ∧ ∀ env2 : sink_env,
        ((compute_deltas env2 old new none).result ≠ none
          ↔ (compute_deltas env2 old new none).ret = 0)
        ∧ ((compute_deltas env2 old new result).ret ≠ 0 →
            (compute_deltas env2 old new result).result = result)
        ∧ ((compute_deltas env2 old new result).ret = 0 →
            ∃ d, (compute_deltas env2 old new result).result = some d
              ∧ (compute_deltas env2 old new result).sink = some d
              ∧ d.references = 1) := by
  constructor
  · have hf := append_all_ok env fresh_sink (diff_entries old new)
      (by simpa [fresh_sink] using hall)
    rw [compute_deltas_eq, hf]
    simp [hc, fresh_sink]
  · intro env2
    obtain ⟨k, _, _, hr, _⟩ := append_all_prefix env2 fresh_sink (diff_entries old new)
    have hr1 : (append_all env2 fresh_sink (diff_entries old new)).2.references = 1 := hr
    simp only [compute_deltas_eq]
    by_cases h2 : env2.create_error = 0
    · by_cases ha : (append_all env2 fresh_sink (diff_entries old new)).1 = 0
      · simp [h2, ha, hr1]
      · simp [h2, ha]
    · simp [h2]

/-- Witness of C12: the four passes append one entry each and nothing fails. -/
theorem compute_deltas_success_witness :
    compute_deltas sink_env.ok table_before table_after none
      = { ret := 0,
          result := some { entries := diff_entries table_before table_after,
                           references := 1, add_calls := 4 },
          sink := some { entries := diff_entries table_before table_after,
                         references := 1, add_calls := 4 } } :=
  (compute_deltas_success sink_env.ok table_before table_after none rfl
    (fun _ _ => rfl)).1

/-! ## The iteration -/

theorem foreach_roa_loop_eq {σ : Type} (cb : vrp → σ → Int × σ)
    (l : List hashable_roa) (arg : σ) :
    foreach_roa_loop cb l arg = foreach_loop cb (l.map hashable_roa.data) arg := by
  induction l generalizing arg with
  | nil => rfl
  | cons n rest ih =>
    simp only [foreach_roa_loop, List.map_cons, foreach_loop]
    by_cases h : (cb n.data arg).1 = 0
    · simp only [h, ne_eq, not_true_eq_false, if_false]
      exact ih _
    · simp only [h, ne_eq, not_false_eq_true, if_true]

theorem foreach_router_key_loop_eq {σ : Type} (cb : router_key → σ → Int × σ)
    (l : List hashable_key) (arg : σ) :
    foreach_router_key_loop cb l arg = foreach_loop cb (l.map hashable_key.data) arg := by
  induction l generalizing arg with
  | nil => rfl
  | cons n rest ih =>
    simp only [foreach_router_key_loop, List.map_cons, foreach_loop]
    by_cases h : (cb n.data arg).1 = 0
    · simp only [h, ne_eq, not_true_eq_false, if_false]
      exact ih _
    · simp only [h, ne_eq, not_false_eq_true, if_true]

theorem db_table_foreach_roa_eq {σ : Type} (t : db_table) (cb : vrp → σ → Int × σ)
    (arg : σ) : db_table_foreach_roa t cb arg = foreach_loop cb (roa_records t) arg :=
  foreach_roa_loop_eq cb t.roas arg

theorem db_table_foreach_router_key_eq {σ : Type} (t : db_table)
    (cb : router_key → σ → Int × σ) (arg : σ) :
    db_table_foreach_router_key t cb arg
      = foreach_loop cb (router_key_records t) arg :=
  foreach_router_key_loop_eq cb t.router_keys arg

theorem foreach_loop_note {α : Type} (l acc : List α) :
    foreach_loop note_cb l acc = (0, acc ++ l) := by
  induction l generalizing acc with
  | nil => simp [foreach_loop]
  | cons r rest ih =>
    simp only [foreach_loop, note_cb, ne_eq, not_true_eq_false, if_false]
    have := ih (acc ++ [r])
    simp only [note_cb] at this
    rw [this]
    simp

theorem visited_roas_eq (t : db_table) : visited_roas t = roa_records t := by
  simp [visited_roas, db_table_foreach_roa_eq, foreach_loop_note]

theorem visited_router_keys_eq (t : db_table) :
    visited_router_keys t = router_key_records t := by
  simp [visited_router_keys, db_table_foreach_router_key_eq, foreach_loop_note]

theorem ordered_diff_eq (old new : db_table) :
    ordered_diff old new = diff_entries old new := by
  simp only [ordered_diff, diff_entries, visited_roas_eq, visited_router_keys_eq,
    roas_missing, keys_missing, roa_records, router_key_records]

/-- C13: the entries that `compute_deltas` appends to the sink it created are,
in this order, the ROAs of `new` absent from `old` (ANNOUNCE), the ROAs of `old`
absent from `new` (WITHDRAW), the Router Keys of `new` absent from `old`
(ANNOUNCE), the Router Keys of `old` absent from `new` (WITHDRAW), each segment
in the order in which `db_table_foreach_roa` / `db_table_foreach_router_key`
visits the outer store: the whole sequence when the call returns 0 (and the sink
is then the one in `*result`), a prefix of it when an append failed. -/
theorem compute_deltas_order (env : sink_env) (old new : db_table)
    (result : Option deltas) (s : deltas)
    (hs : (compute_deltas env old new result).sink = some s) :
    s.entries <+: ordered_diff old new
    ∧ ((compute_deltas env old new result).ret = 0 →
        s.entries = ordered_diff old new
        ∧ (compute_deltas env old new result).result = some s) := by
  rw [ordered_diff_eq]
  obtain ⟨k, hk, he, _, hz⟩ := append_all_prefix env fresh_sink (diff_entries old new)
  have he1 : (append_all env fresh_sink (diff_entries old new)).2.entries
      = (diff_entries old new).take k := by
    rw [he]
    simp [fresh_sink]
  rw [compute_deltas_eq] at hs ⊢
  by_cases hc : env.create_error = 0
  · by_cases ha : (append_all env fresh_sink (diff_entries old new)).1 = 0
    · simp only [hc, ha, ne_eq, not_true_eq_false, if_false, Option.some.injEq] at hs ⊢
      subst hs
      have hk2 := hz ha
      rw [he1, hk2, List.take_length]
      exact ⟨List.prefix_refl _, fun _ => ⟨rfl, rfl⟩⟩
    · simp only [hc, ha, ne_eq, not_true_eq_false, not_false_eq_true, if_false, if_true,
        Option.some.injEq] at hs ⊢
      subst hs
      simp only [deltas_refput, he1]
      exact ⟨List.take_prefix k _, fun h => False.elim h⟩
  · simp [hc] at hs

/-- Witness of C13: four passes with one entry each. -/
theorem compute_deltas_order_witness :
    (compute_deltas sink_env.ok table_before table_after none).sink
      = some { entries := [delta_entry.roa roa_64501 FLAG_ANNOUNCEMENT,
                           delta_entry.roa roa_64500 FLAG_WITHDRAWAL,
                           delta_entry.key key_64501 FLAG_ANNOUNCEMENT,
                           delta_entry.key key_64500 FLAG_WITHDRAWAL],
               references := 1, add_calls := 4 }
    ∧ [delta_entry.roa roa_64501 FLAG_ANNOUNCEMENT,
       delta_entry.roa roa_64500 FLAG_WITHDRAWAL,
       delta_entry.key key_64501 FLAG_ANNOUNCEMENT,
       delta_entry.key key_64500 FLAG_WITHDRAWAL]
        <+: ordered_diff table_before table_after :=
  have hs : (compute_deltas sink_env.ok table_before table_after none).sink
      = some { entries := [delta_entry.roa roa_64501 FLAG_ANNOUNCEMENT,
                           delta_entry.roa roa_64500 FLAG_WITHDRAWAL,
                           delta_entry.key key_64501 FLAG_ANNOUNCEMENT,
                           delta_entry.key key_64500 FLAG_WITHDRAWAL],
               references := 1, add_calls := 4 } := by decide
  ⟨hs, (compute_deltas_order sink_env.ok table_before table_after none _ hs).1⟩

/-! ## Claims about the iteration -/

theorem call_results_append {α σ : Type} (cb : α → σ → Int × σ) (a b : List α) (s : σ) :
    call_results cb (a ++ b) s
      = call_results cb a s ++ call_results cb b (call_state cb a s) := by
  induction a generalizing s with
  | nil => rfl
  | cons r rest ih => simp [call_results, call_state, ih]

/-- The iteration, seen through the trace of the invocations. -/
theorem foreach_loop_trace {α σ : Type} (cb : α → σ → Int × σ) (l : List α) (s : σ)
    (log0 : List α) :
    (foreach_loop (trace_cb cb) l (s, log0)).1 = (foreach_loop cb l s).1
    ∧ (foreach_loop (trace_cb cb) l (s, log0)).2.1 = (foreach_loop cb l s).2
    ∧ ((foreach_loop cb l s).1 = 0 →
        (foreach_loop (trace_cb cb) l (s, log0)).2.2 = log0 ++ l
        ∧ (∀ e, e ∈ call_results cb l s → e = 0)
        ∧ (foreach_loop cb l s).2 = call_state cb l s)
    ∧ ((foreach_loop cb l s).1 ≠ 0 →
        ∃ pre r post, l = pre ++ r :: post
          ∧ (foreach_loop (trace_cb cb) l (s, log0)).2.2 = log0 ++ (pre ++ [r])
          ∧ (∀ e, e ∈ call_results cb pre s → e = 0)
          ∧ cb r (call_state cb pre s) = foreach_loop cb l s) := by
  induction l generalizing s log0 with
  | nil =>
    refine ⟨rfl, rfl, ?_, ?_⟩
    · intro _
      exact ⟨by simp [foreach_loop], by simp [call_results], rfl⟩
    · intro h
      exact absurd rfl h
  | cons r rest ih =>
    by_cases hr : (cb r s).1 = 0
    · obtain ⟨i1, i2, i3, i4⟩ := ih (cb r s).2 (log0 ++ [r])
      have e1 : foreach_loop cb (r :: rest) s = foreach_loop cb rest (cb r s).2 := by
        simp [foreach_loop, hr]
      have e2 : foreach_loop (trace_cb cb) (r :: rest) (s, log0)
          = foreach_loop (trace_cb cb) rest ((cb r s).2, log0 ++ [r]) := by
        simp [foreach_loop, trace_cb, hr]
      rw [e1, e2]
      refine ⟨i1, i2, ?_, ?_⟩
      · intro hz
        obtain ⟨j1, j2, j3⟩ := i3 hz
        refine ⟨by rw [j1]; simp, ?_, by rw [j3]; rfl⟩
        intro e he
        simp only [call_results, List.mem_cons] at he
        rcases he with he | he
        · rw [he]
          exact hr
        · exact j2 e he
      · intro hn
        obtain ⟨pre, x, post, k1, k2, k3, k4⟩ := i4 hn
        refine ⟨r :: pre, x, post, by rw [k1]; rfl, by rw [k2]; simp, ?_, ?_⟩
        · intro e he
          simp only [call_results, List.mem_cons] at he
          rcases he with he | he
          · rw [he]
            exact hr
          · exact k3 e he
        · simpa [call_state] using k4
    · have e1 : foreach_loop cb (r :: rest) s = cb r s := by
        simp [foreach_loop, hr]
      have e2 : foreach_loop (trace_cb cb) (r :: rest) (s, log0)
          = ((cb r s).1, ((cb r s).2, log0 ++ [r])) := by
        simp [foreach_loop, trace_cb, hr]
      rw [e1, e2]
      refine ⟨rfl, rfl, fun hz => absurd hz hr, fun _ => ?_⟩
      exact ⟨[], r, rest, rfl, rfl, by simp [call_results], rfl⟩

/-- When every invocation on the records returns 0, the iteration returns 0. -/
theorem foreach_loop_all_zero {α σ : Type} (cb : α → σ → Int × σ) (l : List α) (s : σ)
    (h : ∀ e, e ∈ call_results cb l s → e = 0) : (foreach_loop cb l s).1 = 0 := by
  by_contra hn
  obtain ⟨pre, r, post, k1, _, _, k4⟩ := (foreach_loop_trace cb l s []).2.2.2 hn
  have hmem : (cb r (call_state cb pre s)).1 ∈ call_results cb l s := by
    rw [k1, call_results_append]
    simp [call_results]
  have := h _ hmem
  rw [k4] at this
  exact hn this

/-- C15: `db_table_foreach_roa` invokes the callback on the records in the order
of the iteration; when an invocation returns a non-zero value it is the first to
do so, it is the last invocation, and the iteration returns exactly its value
(and the state it left); when the iteration returns 0 it has invoked the
callback on every record and every invocation returned 0; it returns 0 whenever
every invocation returns 0, and on an empty store it returns 0 without invoking
the callback. The same for `db_table_foreach_router_key`. -/
theorem foreach_early_exit {σ : Type} (t : db_table)
    (cb : vrp → σ → Int × σ) (cbk : router_key → σ → Int × σ) (arg : σ) :
    ((db_table_foreach_roa t (trace_cb cb) (arg, [])).1 = (db_table_foreach_roa t cb arg).1
      ∧ (db_table_foreach_roa t (trace_cb cb) (arg, [])).2.1
          = (db_table_foreach_roa t cb arg).2
      ∧ ((db_table_foreach_roa t cb arg).1 ≠ 0 →
          ∃ pre r post, roa_records t = pre ++ r :: post
            ∧ (db_table_foreach_roa t (trace_cb cb) (arg, [])).2.2 = pre ++ [r]
            ∧ (∀ e, e ∈ call_results cb pre arg → e = 0)
            ∧ cb r (call_state cb pre arg) = db_table_foreach_roa t cb arg)
      ∧ ((db_table_foreach_roa t cb arg).1 = 0 →
          (db_table_foreach_roa t (trace_cb cb) (arg, [])).2.2 = roa_records t
          ∧ (∀ e, e ∈ call_results cb (roa_records t) arg → e = 0)
          ∧ (db_table_foreach_roa t cb arg).2 = call_state cb (roa_records t) arg)
      ∧ ((∀ e, e ∈ call_results cb (roa_records t) arg → e = 0) →
          (db_table_foreach_roa t cb arg).1 = 0)
      ∧ (roa_records t = [] →
          db_table_foreach_roa t (trace_cb cb) (arg, []) = (0, (arg, []))))
    ∧ ((db_table_foreach_router_key t (trace_cb cbk) (arg, [])).1
          = (db_table_foreach_router_key t cbk arg).1
      ∧ (db_table_foreach_router_key t (trace_cb cbk) (arg, [])).2.1
          = (db_table_foreach_router_key t cbk arg).2
      ∧ ((db_table_foreach_router_key t cbk arg).1 ≠ 0 →
          ∃ pre r post, router_key_records t = pre ++ r :: post
            ∧ (db_table_foreach_router_key t (trace_cb cbk) (arg, [])).2.2 = pre ++ [r]
            ∧ (∀ e, e ∈ call_results cbk pre arg → e = 0)
            ∧ cbk r (call_state cbk pre arg) = db_table_foreach_router_key t cbk arg)
      ∧ ((db_table_foreach_router_key t cbk arg).1 = 0 →
          (db_table_foreach_router_key t (trace_cb cbk) (arg, [])).2.2
            = router_key_records t
          ∧ (∀ e, e ∈ call_results cbk (router_key_records t) arg → e = 0)
          ∧ (db_table_foreach_router_key t cbk arg).2
              = call_state cbk (router_key_records t) arg)
      ∧ ((∀ e, e ∈ call_results cbk (router_key_records t) arg → e = 0) →
          (db_table_foreach_router_key t cbk arg).1 = 0)
      ∧ (router_key_records t = [] →
          db_table_foreach_router_key t (trace_cb cbk) (arg, []) = (0, (arg, [])))) := by
  simp only [db_table_foreach_roa_eq, db_table_foreach_router_key_eq]
  obtain ⟨a1, a2, a3, a4⟩ := foreach_loop_trace cb (roa_records t) arg []
  obtain ⟨b1, b2, b3, b4⟩ := foreach_loop_trace cbk (router_key_records t) arg []
  simp only [List.nil_append] at a3 a4 b3 b4
  refine ⟨⟨a1, a2, a4, a3, foreach_loop_all_zero cb _ arg, ?_⟩,
    ⟨b1, b2, b4, b3, foreach_loop_all_zero cbk _ arg, ?_⟩⟩
  · intro he
    rw [he]
    rfl
  · intro he
    rw [he]
    rfl

/-- C15 on an example: over the two ROAs of a table, a callback that counts its
invocations and fails with 7 on the ROA of AS 64500 is invoked once and the
iteration returns 7; a callback that fails on the ROA of AS 64501 is invoked on
both. -/
theorem early_exit_evaluated :
    db_table_foreach_roa table_two
      (fun r (n : Nat) => (if r.asn = 64500 then 7 else 0, n + 1)) 0 = (7, 1)
    ∧ db_table_foreach_roa table_two
      (fun r (n : Nat) => (if r.asn = 64501 then 7 else 0, n + 1)) 0 = (7, 2)
    ∧ db_table_foreach_roa table_two
      (fun _ (n : Nat) => (0, n + 1)) 0 = (0, 2)
    ∧ db_table_foreach_roa table_empty
      (fun _ (n : Nat) => (7, n + 1)) 0 = (0, 0) := by
  decide

theorem call_results_zero {α σ : Type} (cb : α → σ → Int × σ)
    (h : ∀ r s, (cb r s).1 = 0) (l : List α) (s : σ) :
    ∀ e, e ∈ call_results cb l s → e = 0 := by
  induction l generalizing s with
  | nil =>
    intro e he
    simp [call_results] at he
  | cons r rest ih =>
    intro e he
    simp only [call_results, List.mem_cons] at he
    rcases he with he | he
    · rw [he]
      exact h r s
    · exact ih _ e he

/-- Every reachable table satisfies the store invariant (the fact behind C7, for
use in other proofs). -/
theorem store_invariant_of_reachable (t : db_table) (h : Reachable t) :
    store_invariant t := by
  induction h with
  | create => exact ⟨List.nodup_nil, List.nodup_nil⟩
  | roa_v4 env t asn prefix4 max_length _ ih =>
    rw [rtrhandler_handle_roa_v4_eq]
    cases env.malloc_ok
    · exact ih
    · exact add_roa_invariant _ t _ ih
  | roa_v6 env t asn prefix6 max_length _ ih =>
    rw [rtrhandler_handle_roa_v6_eq]
    cases env.malloc_ok
    · exact ih
    · exact add_roa_invariant _ t _ ih
  | router_key env t ski as spk _ ih =>
    rw [rtrhandler_handle_router_key_eq]
    cases env.malloc_ok
    · exact ih
    · exact add_router_key_invariant _ t _ ih
  | remove_roa t del _ ih => exact remove_roa_invariant t del ih
  | remove_router_key t del _ ih => exact remove_router_key_invariant t del ih

/-- C16: on a reachable table, an iteration with a callback that always returns
0 returns 0 and invokes the callback on every stored record exactly once (the
trace of the invocations is the list of the records, without repetition); the
number of invocations is `db_table_roa_count`, which is the number of distinct
records stored; the same for the Router Keys; both counts are 0 on a freshly
created table. -/
theorem full_iteration_counts {σ : Type} (t : db_table)
    (cb : vrp → σ → Int × σ) (cbk : router_key → σ → Int × σ) (arg : σ)
    (hr : Reachable t)
    (hcb : ∀ r s, (cb r s).1 = 0) (hcbk : ∀ k s, (cbk k s).1 = 0) :
    ((db_table_foreach_roa t (trace_cb cb) (arg, [])).1 = 0
      ∧ (db_table_foreach_roa t (trace_cb cb) (arg, [])).2.2 = roa_records t
      ∧ (∀ r, r ∈ roa_records t →
          (db_table_foreach_roa t (trace_cb cb) (arg, [])).2.2.count r = 1)
      ∧ (db_table_foreach_roa t (trace_cb cb) (arg, [])).2.2.length
          = db_table_roa_count t
      ∧ db_table_roa_count t = (roa_records t).toFinset.card)
    ∧ ((db_table_foreach_router_key t (trace_cb cbk) (arg, [])).1 = 0
      ∧ (db_table_foreach_router_key t (trace_cb cbk) (arg, [])).2.2
          = router_key_records t
      ∧ (∀ k, k ∈ router_key_records t →
          (db_table_foreach_router_key t (trace_cb cbk) (arg, [])).2.2.count k = 1)
      ∧ (db_table_foreach_router_key t (trace_cb cbk) (arg, [])).2.2.length
          = db_table_router_key_count t
      ∧ db_table_router_key_count t = (router_key_records t).toFinset.card)
    ∧ (∀ m t0, db_table_create m = some t0 →
        db_table_roa_count t0 = 0 ∧ db_table_router_key_count t0 = 0) := by
  obtain ⟨n1, n2⟩ := store_invariant_of_reachable t hr
  simp only [db_table_foreach_roa_eq, db_table_foreach_router_key_eq]
  obtain ⟨a1, _, a3, _⟩ := foreach_loop_trace cb (roa_records t) arg []
  obtain ⟨b1, _, b3, _⟩ := foreach_loop_trace cbk (router_key_records t) arg []
  have za := foreach_loop_all_zero cb (roa_records t) arg
    (call_results_zero cb hcb (roa_records t) arg)
  have zb := foreach_loop_all_zero cbk (router_key_records t) arg
    (call_results_zero cbk hcbk (router_key_records t) arg)
  have la := (a3 za).1
  have lb := (b3 zb).1
  simp only [List.nil_append] at la lb
  refine ⟨⟨by rw [a1]; exact za, la, ?_, ?_, ?_⟩, ⟨by rw [b1]; exact zb, lb, ?_, ?_, ?_⟩, ?_⟩
  · intro r hr1
    rw [la]
    exact List.count_eq_one_of_mem n1 hr1
  · rw [la]
    simp [roa_records, db_table_roa_count, HASH_COUNT]
  · rw [List.toFinset_card_of_nodup n1]
    simp [roa_records, db_table_roa_count, HASH_COUNT]
  · intro k hk1
    rw [lb]
    exact List.count_eq_one_of_mem n2 hk1
  · rw [lb]
    simp [router_key_records, db_table_router_key_count, HASH_COUNT]
  · rw [List.toFinset_card_of_nodup n2]
    simp [router_key_records, db_table_router_key_count, HASH_COUNT]
  · intro m t0 h0
    unfold db_table_create at h0
    cases m
    · simp at h0
    · simp at h0
      subst h0
      exact ⟨rfl, rfl⟩

/-- Witness of C16: the table after inserting the ROA of AS 64500 twice and the
ROA of AS 64501 once; the callback counts its invocations. -/
theorem full_iteration_counts_witness :
    Reachable
      (rtrhandler_handle_roa_v4 alloc_env.ok
        (rtrhandler_handle_roa_v4 alloc_env.ok
          (rtrhandler_handle_roa_v4 alloc_env.ok { roas := [], router_keys := [] }
            64500 { addr := [10, 0, 0, 0], len := 24 } 24).2
          64500 { addr := [10, 0, 0, 0], len := 24 } 24).2
        64501 { addr := [192, 0, 2, 0], len := 24 } 24).2
    ∧ (db_table_foreach_roa
        (rtrhandler_handle_roa_v4 alloc_env.ok
          (rtrhandler_handle_roa_v4 alloc_env.ok
            (rtrhandler_handle_roa_v4 alloc_env.ok { roas := [], router_keys := [] }
              64500 { addr := [10, 0, 0, 0], len := 24 } 24).2
            64500 { addr := [10, 0, 0, 0], len := 24 } 24).2
          64501 { addr := [192, 0, 2, 0], len := 24 } 24).2
        (trace_cb (fun _ (n : Nat) => (0, n + 1))) (0, [])).2.2.length
      = db_table_roa_count
        (rtrhandler_handle_roa_v4 alloc_env.ok
          (rtrhandler_handle_roa_v4 alloc_env.ok
            (rtrhandler_handle_roa_v4 alloc_env.ok { roas := [], router_keys := [] }
              64500 { addr := [10, 0, 0, 0], len := 24 } 24).2
            64500 { addr := [10, 0, 0, 0], len := 24 } 24).2
          64501 { addr := [192, 0, 2, 0], len := 24 } 24).2 :=
  have hr := Reachable.roa_v4 alloc_env.ok _ 64501 { addr := [192, 0, 2, 0], len := 24 } 24
    (Reachable.roa_v4 alloc_env.ok _ 64500 { addr := [10, 0, 0, 0], len := 24 } 24
      (Reachable.roa_v4 alloc_env.ok _ 64500 { addr := [10, 0, 0, 0], len := 24 } 24
        Reachable.create))
  ⟨hr, (full_iteration_counts _ (fun _ (n : Nat) => (0, n + 1))
    (fun _ (n : Nat) => (0, n + 1)) 0 hr (fun _ _ => rfl) (fun _ _ => rfl)).1.2.2.2.1⟩

/-- The iteration of C16's witness, evaluated: two invocations, count 2. -/
theorem full_iteration_evaluated :
    db_table_foreach_roa
        (rtrhandler_handle_roa_v4 alloc_env.ok
          (rtrhandler_handle_roa_v4 alloc_env.ok
            (rtrhandler_handle_roa_v4 alloc_env.ok { roas := [], router_keys := [] }
              64500 { addr := [10, 0, 0, 0], len := 24 } 24).2
            64500 { addr := [10, 0, 0, 0], len := 24 } 24).2
          64501 { addr := [192, 0, 2, 0], len := 24 } 24).2
        (fun _ (n : Nat) => (0, n + 1)) 0 = (0, 2)
    ∧ db_table_roa_count
        (rtrhandler_handle_roa_v4 alloc_env.ok
          (rtrhandler_handle_roa_v4 alloc_env.ok
            (rtrhandler_handle_roa_v4 alloc_env.ok { roas := [], router_keys := [] }
              64500 { addr := [10, 0, 0, 0], len := 24 } 24).2
            64500 { addr := [10, 0, 0, 0], len := 24 } 24).2
          64501 { addr := [192, 0, 2, 0], len := 24 } 24).2 = 2 := by
  decide

/-! ## Claims about the key of a record -/

/-- C17: two ROA records that differ (in any field) are two entries: inserted
one after the other into an empty table, both inserts succeed, the count is 2
and each is found under its own value; the diff from a table holding the first
to a table holding the second announces the second and withdraws the first. -/
theorem distinct_records_independent (v1 v2 : vrp) (h : v1 ≠ v2) :
    (add_roa 0 table_empty { data := v1 }).1 = 0
    ∧ (add_roa 0 (add_roa 0 table_empty { data := v1 }).2 { data := v2 }).1 = 0
    ∧ db_table_roa_count
        (add_roa 0 (add_roa 0 table_empty { data := v1 }).2 { data := v2 }).2 = 2
    ∧ HASH_FIND hashable_roa.data
        (add_roa 0 (add_roa 0 table_empty { data := v1 }).2 { data := v2 }).2.roas v1
        = some { data := v1 }
    ∧ HASH_FIND hashable_roa.data
        (add_roa 0 (add_roa 0 table_empty { data := v1 }).2 { data := v2 }).2.roas v2
        = some { data := v2 }
    ∧ compute_deltas sink_env.ok { roas := [{ data := v1 }], router_keys := [] }
        { roas := [{ data := v2 }], router_keys := [] } none
      = { ret := 0,
          result := some { entries := [delta_entry.roa v2 FLAG_ANNOUNCEMENT,
                                       delta_entry.roa v1 FLAG_WITHDRAWAL],
                           references := 1, add_calls := 2 },
          sink := some { entries := [delta_entry.roa v2 FLAG_ANNOUNCEMENT,
                                     delta_entry.roa v1 FLAG_WITHDRAWAL],
                         references := 1, add_calls := 2 } } := by
  have h' : v2 ≠ v1 := fun hc => h hc.symm
  have e1 : add_roa 0 table_empty { data := v1 }
      = (0, { roas := [{ data := v1 }], router_keys := [] }) := by
    simp [add_roa_eq, table_empty, HASH_REPLACE, HASH_FIND]
  have e2 : add_roa 0 { roas := [{ data := v1 }], router_keys := [] } { data := v2 }
      = (0, { roas := [{ data := v1 }, { data := v2 }], router_keys := [] }) := by
    simp [add_roa_eq, HASH_REPLACE, HASH_FIND, h]
  rw [e1]
  simp only [e2]
  refine ⟨trivial, trivial, rfl, ?_, ?_, ?_⟩
  · simp [HASH_FIND]
  · simp [HASH_FIND, h]
  · have hd : diff_entries { roas := [{ data := v1 }], router_keys := [] }
        { roas := [{ data := v2 }], router_keys := [] }
        = [delta_entry.roa v2 FLAG_ANNOUNCEMENT, delta_entry.roa v1 FLAG_WITHDRAWAL] := by
      simp [diff_entries, roas_missing, keys_missing, h, h']
    have ha := append_all_ok sink_env.ok fresh_sink
      (diff_entries { roas := [{ data := v1 }], router_keys := [] }
        { roas := [{ data := v2 }], router_keys := [] }) (fun _ _ => rfl)
    rw [compute_deltas_eq, ha, hd]
    simp [sink_env.ok, fresh_sink]

/-- Witness of C17: two ROAs of AS 64500 for 10.0.0.0/24 that differ only in
the maximum length, 24 and 25. -/
theorem distinct_records_independent_witness :
    vrp_v4 64500 { addr := [10, 0, 0, 0], len := 24 } 24
      ≠ vrp_v4 64500 { addr := [10, 0, 0, 0], len := 24 } 25
    ∧ db_table_roa_count
        (add_roa 0
          (add_roa 0 table_empty
            { data := vrp_v4 64500 { addr := [10, 0, 0, 0], len := 24 } 24 }).2
          { data := vrp_v4 64500 { addr := [10, 0, 0, 0], len := 24 } 25 }).2 = 2 :=
  have hne : vrp_v4 64500 { addr := [10, 0, 0, 0], len := 24 } 24
      ≠ vrp_v4 64500 { addr := [10, 0, 0, 0], len := 24 } 25 := by decide
  ⟨hne, (distinct_records_independent _ _ hne).2.2.1⟩

/-- The handlers on C17's records, evaluated: after inserting the ROA with
maximum length 24 and then the one with maximum length 25, the count is 2. -/
theorem max_length_entries_evaluated :
    db_table_roa_count
      (rtrhandler_handle_roa_v4 alloc_env.ok
        (rtrhandler_handle_roa_v4 alloc_env.ok table_empty
          64500 { addr := [10, 0, 0, 0], len := 24 } 24).2
        64500 { addr := [10, 0, 0, 0], len := 24 } 25).2 = 2 := by
  decide

/-- C18 (as the code has it): the result of an insert-or-replace does not
depend on the table; a successful one is 0 whether an equal entry was present
or not, for `add_roa`, `add_router_key` and the three handlers. Whether an
equal entry was present is known inside `add_roa` and `add_router_key` only,
as the node that `HASH_REPLACE` hands back, and it is not returned. -/
theorem insert_result_ignores_table (e : Int) (env : alloc_env) (t1 t2 : db_table)
    (new : hashable_roa) (newk : hashable_key)
    (asn4 : Nat) (prefix4 : ipv4_prefix) (max4 : Nat)
    (asn6 : Nat) (prefix6 : ipv6_prefix) (max6 : Nat)
    (ski : List Nat) (as : Nat) (spk : List Nat) :
    (add_roa e t1 new).1 = (add_roa e t2 new).1
    ∧ (add_router_key e t1 newk).1 = (add_router_key e t2 newk).1
    ∧ (rtrhandler_handle_roa_v4 env t1 asn4 prefix4 max4).1
        = (rtrhandler_handle_roa_v4 env t2 asn4 prefix4 max4).1
    ∧ (rtrhandler_handle_roa_v6 env t1 asn6 prefix6 max6).1
        = (rtrhandler_handle_roa_v6 env t2 asn6 prefix6 max6).1
    ∧ (rtrhandler_handle_router_key env t1 ski as spk).1
        = (rtrhandler_handle_router_key env t2 ski as spk).1
    ∧ ((add_roa e t1 new).1 = 0 → (add_roa e t2 new).1 = 0)
    ∧ (((HASH_REPLACE hashable_roa.data e t1.roas new).2.1).isSome = true
        ↔ new.data ∈ roa_records t1)
    ∧ (((HASH_REPLACE hashable_key.data e t1.router_keys newk).2.1).isSome = true
        ↔ newk.data ∈ router_key_records t1) := by
  refine ⟨?_, ?_, ?_, ?_, ?_, ?_, ?_, ?_⟩
  · simp only [add_roa_eq]
  · simp only [add_router_key_eq]
  · simp only [rtrhandler_handle_roa_v4_eq, add_roa_eq]
    cases env.malloc_ok <;> simp
  · simp only [rtrhandler_handle_roa_v6_eq, add_roa_eq]
    cases env.malloc_ok <;> simp
  · simp only [rtrhandler_handle_router_key_eq, add_router_key_eq]
    cases env.malloc_ok <;> simp
  · simp only [add_roa_eq]
    exact fun h => h
  · by_cases hm : new.data ∈ roa_records t1
    · obtain ⟨r, _, _, heq⟩ := HASH_REPLACE_present hashable_roa.data e t1.roas new hm
      rw [heq]
      by_cases he : e = 0 <;> simp [he, hm]
    · rw [HASH_REPLACE_absent hashable_roa.data e t1.roas new hm]
      by_cases he : e = 0 <;> simp [he, hm]
  · by_cases hm : newk.data ∈ router_key_records t1
    · obtain ⟨r, _, _, heq⟩ :=
        HASH_REPLACE_present hashable_key.data e t1.router_keys newk hm
      rw [heq]
      by_cases he : e = 0 <;> simp [he, hm]
    · rw [HASH_REPLACE_absent hashable_key.data e t1.router_keys newk hm]
      by_cases he : e = 0 <;> simp [he, hm]

/-- C18 (the counterexample): the ROA of AS 64500 is in one table and not in
the other; inserting it into either succeeds with the same result, 0, from
`add_roa` and from `rtrhandler_handle_roa_v4`. -/
theorem insert_result_same_with_and_without_prior :
    roa_64500 ∈ roa_records table_one
    ∧ roa_64500 ∉ roa_records table_empty
    ∧ vrp_v4 64500 { addr := [10, 0, 0, 0], len := 24 } 24 = roa_64500
    ∧ (add_roa 0 table_one { data := roa_64500 }).1 = 0
    ∧ (add_roa 0 table_empty { data := roa_64500 }).1 = 0
    ∧ (rtrhandler_handle_roa_v4 alloc_env.ok table_one
        64500 { addr := [10, 0, 0, 0], len := 24 } 24).1 = 0
    ∧ (rtrhandler_handle_roa_v4 alloc_env.ok table_empty
        64500 { addr := [10, 0, 0, 0], len := 24 } 24).1 = 0 := by
  decide

/-! ## Claims about the record that a handler builds -/

theorem write_prefix_zero (bytes : List Nat) :
    write_prefix bytes zero_prefix = bytes ++ List.replicate (16 - bytes.length) 0 := by
  unfold write_prefix zero_prefix
  rw [List.drop_replicate]

/-- C19: a successful `rtrhandler_handle_roa_v4` leaves in the table a record
whose family is `AF_INET`, whose AS number, prefix length and maximum length are
the arguments (no relation between the two lengths is required), and whose
union `prefix` holds the bytes of the address followed by zeros (12 of them
after the 4 bytes of an IPv4 address); `rtrhandler_handle_roa_v6` does the same
with `AF_INET6`; a record built by the one is never equal to a record built by
the other. -/
theorem handler_builds_record (env4 env6 : alloc_env) (t : db_table)
    (asn4 : Nat) (prefix4 : ipv4_prefix) (max4 : Nat)
    (asn6 : Nat) (prefix6 : ipv6_prefix) (max6 : Nat)
    (h4 : (rtrhandler_handle_roa_v4 env4 t asn4 prefix4 max4).1 = 0)
    (h6 : (rtrhandler_handle_roa_v6 env6 t asn6 prefix6 max6).1 = 0) :
    (∃ r, r ∈ roa_records (rtrhandler_handle_roa_v4 env4 t asn4 prefix4 max4).2
        ∧ r.addr_fam = AF_INET ∧ r.asn = asn4
        ∧ r.prefix_addr = prefix4.addr ++ List.replicate (16 - prefix4.addr.length) 0
        ∧ (prefix4.addr.length = 4 →
            r.prefix_addr = prefix4.addr ++ [0, 0, 0, 0, 0, 0, 0, 0, 0, 0, 0, 0])
        ∧ r.prefix_length = prefix4.len ∧ r.max_prefix_length = max4)
    ∧ (∃ r, r ∈ roa_records (rtrhandler_handle_roa_v6 env6 t asn6 prefix6 max6).2
        ∧ r.addr_fam = AF_INET6 ∧ r.asn = asn6
        ∧ r.prefix_addr = prefix6.addr ++ List.replicate (16 - prefix6.addr.length) 0
        ∧ (prefix6.addr.length = 16 → r.prefix_addr = prefix6.addr)
        ∧ r.prefix_length = prefix6.len ∧ r.max_prefix_length = max6)
    ∧ (∀ (a : Nat) (p : ipv4_prefix) (m : Nat) (a6 : Nat) (p6 : ipv6_prefix) (m6 : Nat),
        vrp_v4 a p m ≠ vrp_v6 a6 p6 m6) := by
  refine ⟨?_, ?_, ?_⟩
  · rw [rtrhandler_handle_roa_v4_eq] at h4 ⊢
    cases hm : env4.malloc_ok
    · rw [hm] at h4
      exact absurd h4 pr_enomem_ne_zero
    · rw [hm] at h4
      simp only [if_true] at h4 ⊢
      rw [add_roa_eq] at h4 ⊢
      have z : env4.hash_errno = 0 := by simpa using h4
      rw [z]
      refine ⟨vrp_v4 asn4 prefix4 max4, ?_, rfl, rfl, write_prefix_zero _, ?_, rfl, rfl⟩
      · exact (HASH_REPLACE_mem hashable_roa.data t.roas _ _).2 (Or.inl rfl)
      · intro hl
        have := write_prefix_zero prefix4.addr
        rw [hl] at this
        exact this
  · rw [rtrhandler_handle_roa_v6_eq] at h6 ⊢
    cases hm : env6.malloc_ok
    · rw [hm] at h6
      exact absurd h6 pr_enomem_ne_zero
    · rw [hm] at h6
      simp only [if_true] at h6 ⊢
      rw [add_roa_eq] at h6 ⊢
      have z : env6.hash_errno = 0 := by simpa using h6
      rw [z]
      refine ⟨vrp_v6 asn6 prefix6 max6, ?_, rfl, rfl, write_prefix_zero _, ?_, rfl, rfl⟩
      · exact (HASH_REPLACE_mem hashable_roa.data t.roas _ _).2 (Or.inl rfl)
      · intro hl
        have := write_prefix_zero prefix6.addr
        rw [hl] at this
        simpa using this
  · intro a p m a6 p6 m6 hc
    have hf : (vrp_v4 a p m).addr_fam = (vrp_v6 a6 p6 m6).addr_fam := by rw [hc]
    simp [vrp_v4, vrp_v6, AF_INET, AF_INET6] at hf

/-- Witness of C19: an IPv4 ROA whose maximum length, 8, is smaller than its
prefix length, 24, and an IPv6 ROA, both into the empty table. -/
theorem handler_builds_record_witness :
    (rtrhandler_handle_roa_v4 alloc_env.ok table_empty 64500
        { addr := [10, 0, 0, 0], len := 24 } 8).1 = 0
    ∧ (rtrhandler_handle_roa_v6 alloc_env.ok table_empty 64501
        { addr := [32, 1, 13, 184, 0, 0, 0, 0, 0, 0, 0, 0, 0, 0, 0, 0], len := 32 } 48).1 = 0
    ∧ ∃ r, r ∈ roa_records (rtrhandler_handle_roa_v4 alloc_env.ok table_empty 64500
          { addr := [10, 0, 0, 0], len := 24 } 8).2
        ∧ r.addr_fam = AF_INET ∧ r.asn = 64500
        ∧ r.prefix_addr = [10, 0, 0, 0] ++ List.replicate (16 - 4) 0
        ∧ ((4 : Nat) = 4 →
            r.prefix_addr = [10, 0, 0, 0] ++ [0, 0, 0, 0, 0, 0, 0, 0, 0, 0, 0, 0])
        ∧ r.prefix_length = 24 ∧ r.max_prefix_length = 8 :=
  ⟨by decide, by decide,
    (handler_builds_record alloc_env.ok alloc_env.ok table_empty 64500
      { addr := [10, 0, 0, 0], len := 24 } 8 64501
      { addr := [32, 1, 13, 184, 0, 0, 0, 0, 0, 0, 0, 0, 0, 0, 0, 0], len := 32 } 48
      (by decide) (by decide)).1⟩

/-- The table of C19's witness, evaluated. -/
theorem handler_record_evaluated :
    rtrhandler_handle_roa_v4 alloc_env.ok table_empty 64500
        { addr := [10, 0, 0, 0], len := 24 } 8
      = (0, { roas := [{ data := { asn := 64500,
                                    prefix_addr := [10, 0, 0, 0, 0, 0, 0, 0,
                                                    0, 0, 0, 0, 0, 0, 0, 0],
                                    prefix_length := 24, max_prefix_length := 8,
                                    addr_fam := AF_INET } }],
              router_keys := [] }) := by
  decide

/-! ## Claims about repetitions in a diff -/

/-- The sink that a call of `compute_deltas` created holds a prefix of the four
segments of the diff. -/
theorem sink_entries_initial (env : sink_env) (old new : db_table)
    (result : Option deltas) (s : deltas)
    (hs : (compute_deltas env old new result).sink = some s) :
    s.entries <+: diff_entries old new := by
  obtain ⟨k, _, he, _, _⟩ := append_all_prefix env fresh_sink (diff_entries old new)
  have he1 : (append_all env fresh_sink (diff_entries old new)).2.entries
      = (diff_entries old new).take k := by
    rw [he]
    simp [fresh_sink]
  rw [compute_deltas_eq] at hs
  by_cases hc : env.create_error = 0
  · by_cases ha : (append_all env fresh_sink (diff_entries old new)).1 = 0
    · simp only [hc, ha, ne_eq, not_true_eq_false, if_false, Option.some.injEq] at hs
      subst hs
      rw [he1]
      exact List.take_prefix k _
    · simp only [hc, ha, ne_eq, not_true_eq_false, not_false_eq_true, if_false, if_true,
        Option.some.injEq] at hs
      subst hs
      simp only [deltas_refput, he1]
      exact List.take_prefix k _
  · simp [hc] at hs

theorem roas_missing_nodup (roas1 roas2 : List hashable_roa)
    (h : (roas1.map hashable_roa.data).Nodup) : (roas_missing roas1 roas2).Nodup :=
  h.filter _

theorem keys_missing_nodup (keys1 keys2 : List hashable_key)
    (h : (keys1.map hashable_key.data).Nodup) : (keys_missing keys1 keys2).Nodup :=
  h.filter _

/-- C20: for tables that satisfy the store invariant, in the sink that
`compute_deltas old new` created (handed over, or released after a failure) the
announced ROAs are pairwise distinct, the withdrawn ROAs are pairwise distinct
and no ROA is both announced and withdrawn; the same for the Router Keys. -/
theorem compute_deltas_no_repetition (env : sink_env) (old new : db_table)
    (result : Option deltas) (s : deltas)
    (hold : store_invariant old) (hnew : store_invariant new)
    (hs : (compute_deltas env old new result).sink = some s) :
    (roas_with FLAG_ANNOUNCEMENT s.entries).Nodup
    ∧ (roas_with FLAG_WITHDRAWAL s.entries).Nodup
    ∧ (∀ r, r ∈ roas_with FLAG_ANNOUNCEMENT s.entries →
        r ∉ roas_with FLAG_WITHDRAWAL s.entries)
    ∧ (keys_with FLAG_ANNOUNCEMENT s.entries).Nodup
    ∧ (keys_with FLAG_WITHDRAWAL s.entries).Nodup
    ∧ (∀ k, k ∈ keys_with FLAG_ANNOUNCEMENT s.entries →
        k ∉ keys_with FLAG_WITHDRAWAL s.entries) := by
  have hp := (sink_entries_initial env old new result s hs).sublist
  obtain ⟨r1, r2, r3, r4⟩ := diff_entries_read old new
  have s1 : (roas_with FLAG_ANNOUNCEMENT s.entries).Sublist (roas_missing new.roas old.roas) := by
    rw [← r1]
    exact hp.filterMap _
  have s2 : (roas_with FLAG_WITHDRAWAL s.entries).Sublist (roas_missing old.roas new.roas) := by
    rw [← r2]
    exact hp.filterMap _
  have s3 : (keys_with FLAG_ANNOUNCEMENT s.entries).Sublist
      (keys_missing new.router_keys old.router_keys) := by
    rw [← r3]
    exact hp.filterMap _
  have s4 : (keys_with FLAG_WITHDRAWAL s.entries).Sublist
      (keys_missing old.router_keys new.router_keys) := by
    rw [← r4]
    exact hp.filterMap _
  refine ⟨(roas_missing_nodup _ _ hnew.1).sublist s1,
    (roas_missing_nodup _ _ hold.1).sublist s2, ?_,
    (keys_missing_nodup _ _ hnew.2).sublist s3,
    (keys_missing_nodup _ _ hold.2).sublist s4, ?_⟩
  · intro r ha hw
    have m1 := (mem_roas_missing _ _ r).1 (s1.subset ha)
    have m2 := (mem_roas_missing _ _ r).1 (s2.subset hw)
    exact m1.2 m2.1
  · intro k ha hw
    have m1 := (mem_keys_missing _ _ k).1 (s3.subset ha)
    have m2 := (mem_keys_missing _ _ k).1 (s4.subset hw)
    exact m1.2 m2.1

/-- Witness of C20: the diff between two tables that differ in a ROA and in a
Router Key. -/
theorem compute_deltas_no_repetition_witness :
    store_invariant table_before ∧ store_invariant table_after
    ∧ (compute_deltas sink_env.ok table_before table_after none).sink
        = some { entries := diff_entries table_before table_after, references := 1,
                 add_calls := 4 }
    ∧ (roas_with FLAG_ANNOUNCEMENT (diff_entries table_before table_after)).Nodup
    ∧ (roas_with FLAG_WITHDRAWAL (diff_entries table_before table_after)).Nodup
    ∧ (∀ r, r ∈ roas_with FLAG_ANNOUNCEMENT (diff_entries table_before table_after) →
        r ∉ roas_with FLAG_WITHDRAWAL (diff_entries table_before table_after)) :=
  have h1 : store_invariant table_before := ⟨by decide, by decide⟩
  have h2 : store_invariant table_after := ⟨by decide, by decide⟩
  have hs : (compute_deltas sink_env.ok table_before table_after none).sink
      = some { entries := diff_entries table_before table_after, references := 1,
               add_calls := 4 } := by decide
  have h := compute_deltas_no_repetition sink_env.ok table_before table_after none _
    h1 h2 hs
  ⟨h1, h2, hs, h.1, h.2.1, h.2.2.1⟩

end DbTable
